import Mathlib

/-!
Verification development for an adaptive-learning web application
consisting of an Express backend (prompt construction, one upstream
generative-language call, JSON extraction/repair, deterministic local
fallback generators, six POST content routes) and a browser client
(learner-profile recomputation over session history).

The backend and client logic is shallowly embedded below: pure JS
functions become Lean functions over `List Char` / `String`, JS numbers
become `Int` or `Rat` as appropriate, fallible parsing returns `Option`,
and each route handler becomes a function from its (optional-field)
request body and the upstream call result to an HTTP outcome.
-/

/- ### Characters used throughout the embedding

Characters that are awkward to write as literals are defined by code point:
96 is the backtick, 34 the double quote, 39 the single quote,
123/125 the curly braces, 91/93 the square brackets, 92 the backslash. -/

def btChar : Char := Char.ofNat 96

def dqChar : Char := Char.ofNat 34

def sqChar : Char := Char.ofNat 39

def lbrChar : Char := Char.ofNat 123

def rbrChar : Char := Char.ofNat 125

def lbkChar : Char := Char.ofNat 91

def rbkChar : Char := Char.ofNat 93

def bslChar : Char := Char.ofNat 92

/-- JSON insignificant whitespace, per the JSON grammar accepted by
JSON.parse: space, tab, line feed, carriage return. -/
def isJsonWs (c : Char) : Bool :=
  c = ' ' || c = '\t' || c = '\n' || c = '\x0d'

/-- The JS regex class \s restricted to ASCII: space, tab, line feed,
vertical tab, form feed, carriage return. -/
def isJsSpace (c : Char) : Bool :=
  c = ' ' || c = '\t' || c = '\n' || c = '\x0b' || c = '\x0c' || c = '\x0d'

/-- The JS regex class \w: ASCII letters, digits and underscore. -/
def isWordChar (c : Char) : Bool :=
  c.isAlpha || c.isDigit || c = '_'

/- ### Exact rational arithmetic

JS numeric arithmetic is embedded as exact rational arithmetic.  The
operations are written directly over numerator and denominator through
the normalising constructor mkRat, so that every concrete computation in
this file reduces definitionally. -/

def ratAdd (a b : Rat) : Rat :=
  mkRat (a.num * (b.den : Int) + b.num * (a.den : Int)) (a.den * b.den)

def ratMul (a b : Rat) : Rat := mkRat (a.num * b.num) (a.den * b.den)

def ratInv (b : Rat) : Rat :=
  if b.num < 0 then mkRat (-(b.den : Int)) (-b.num).toNat
  else mkRat (b.den : Int) b.num.toNat

def ratDiv (a b : Rat) : Rat := ratMul a (ratInv b)

/-- Boolean strict order on rationals (core Rat.blt reduces). -/
def ratLt (a b : Rat) : Bool := Rat.blt a b

/- ### JSON values

The result type of the modelled JSON.parse.  Numbers are represented
exactly as rationals; objects are key/value lists in insertion order with
later duplicate keys overwriting earlier ones, as in JS. -/

inductive JVal : Type where
  | jnull : JVal
  | jbool : Bool → JVal
  | jnum : Rat → JVal
  | jstr : String → JVal
  | jarr : List JVal → JVal
  | jobj : List (String × JVal) → JVal

/-- An integer as a JSON/JS number. -/
def jint (i : Int) : JVal := JVal.jnum (mkRat i 1)

/-- JS property access on a parsed JSON value: defined (`some`) only for
object receivers holding the key. -/
def JVal.getField : JVal → String → Option JVal
  | JVal.jobj fields, k => fields.lookup k
  | _, _ => none

/-- JS truthiness of a JSON value (null, false, 0 and the empty string are
falsy; arrays and objects are always truthy). -/
def JVal.truthy : JVal → Bool
  | JVal.jnull => false
  | JVal.jbool b => b
  | JVal.jnum q => q ≠ 0
  | JVal.jstr s => s ≠ ""
  | JVal.jarr _ => true
  | JVal.jobj _ => true

/-- Truthiness of `v.k` in JS: the field must exist and be truthy
(a missing field is `undefined`, which is falsy). -/
def JVal.truthyField (v : JVal) (k : String) : Bool :=
  match v.getField k with
  | some f => f.truthy
  | none => false

def JVal.isArr : JVal → Bool
  | JVal.jarr _ => true
  | _ => false

/-- JS object-literal insertion: a duplicate key overwrites the stored
value in place, otherwise the pair is appended. -/
def objInsert (fields : List (String × JVal)) (k : String) (v : JVal) :
    List (String × JVal) :=
  match fields with
  | [] => [(k, v)]
  | (k0, v0) :: rest =>
      if k0 = k then (k0, v) :: rest else (k0, v0) :: objInsert rest k v

/- ### Code-fence stripping

Embedding of the two replacements
  text.replace(re1, "").replace(re2, "")
where re1 is the global case-insensitive regex matching three backticks,
an optional language word (json, js or javascript, tried in that order),
and an optional newline; and re2 is the global regex matching three
backticks.  Both are modelled as left-to-right scanners, which agrees
with the semantics of String.replace with a global regex (successive
leftmost matches). -/

/-- Case-insensitive literal-prefix removal: `dropCI pat s` returns the
remainder of `s` after the (lowercase) pattern `pat`, or `none`. -/
def dropCI : List Char → List Char → Option (List Char)
  | [], s => some s
  | _ :: _, [] => none
  | p :: ps, c :: cs => if c.toLower = p then dropCI ps cs else none

def langJson : List Char := ['j', 's', 'o', 'n']

def langJs : List Char := ['j', 's']

def langJavascript : List Char :=
  ['j', 'a', 'v', 'a', 's', 'c', 'r', 'i', 'p', 't']

/-- Remainder after the optional language word of re1 (alternatives tried
in the regex order json, js, javascript; no backtracking is needed since
the following optional newline always succeeds). -/
def langRest (s : List Char) : List Char :=
  match dropCI langJson s with
  | some r => r
  | none =>
      match dropCI langJs s with
      | some r => r
      | none =>
          match dropCI langJavascript s with
          | some r => r
          | none => s

/-- Remainder after the optional newline of re1. -/
def dropNl (s : List Char) : List Char :=
  match s with
  | [] => []
  | c :: r => if c = '\n' then r else s

/-- Remainder after the language word and optional newline, given that the
three backticks have already been consumed. -/
def fenceTail (s : List Char) : List Char := dropNl (langRest s)

/-- Does the text start with three backticks (the start of a match of
either fence regex)? -/
def isFenceStart (s : List Char) : Bool :=
  match s with
  | a :: b :: c :: _ => a = btChar && b = btChar && c = btChar
  | _ => false

/-- Fuelled scanner for the first fence replacement.  The fuel only needs
to dominate the number of scanner steps; each step consumes at least one
character, so the input length suffices. -/
def goStripA : Nat → List Char → List Char
  | 0, s => s
  | Nat.succ _, [] => []
  | Nat.succ f, c :: cs =>
      if isFenceStart (c :: cs) then goStripA f (fenceTail (cs.drop 2))
      else c :: goStripA f cs

/-- text.replace(re1, "") where re1 matches three backticks, an optional
language word, and an optional newline (global, case-insensitive). -/
def stripFenceLang (s : List Char) : List Char := goStripA s.length s

/-- text.replace(re2, "") where re2 matches three backticks (global):
a structural left-to-right scanner. -/
def stripFencePlain : List Char → List Char
  | c1 :: c2 :: c3 :: rest =>
      if c1 = btChar ∧ c2 = btChar ∧ c3 = btChar then stripFencePlain rest
      else c1 :: stripFencePlain (c2 :: c3 :: rest)
  | s => s

/-- Whitespace removed by String.prototype.trim (ASCII part). -/
def isTrimWs (c : Char) : Bool :=
  c = ' ' || c = '\t' || c = '\n' || c = '\x0b' || c = '\x0c' || c = '\x0d'

def trimLeftWs (s : List Char) : List Char := s.dropWhile isTrimWs

def trimRightWs (s : List Char) : List Char :=
  (s.reverse.dropWhile isTrimWs).reverse

/-- .trim() on both ends. -/
def trimWs (s : List Char) : List Char := trimRightWs (trimLeftWs s)

/-- The normalisation pipeline applied by parseJSONFromText before any
bracket matching: strip both fence regexes, then trim. -/
def normalizeText (s : List Char) : List Char :=
  trimWs (stripFencePlain (stripFenceLang s))

/- ### Bracket-span extraction

The greedy regexes matching a first-open-bracket to last-close-bracket
span; a match exists iff the first opening bracket occurs strictly before
the last closing bracket. -/

def bracketSpan (openC closeC : Char) (t : List Char) : Option (List Char) :=
  match t.findIdx? (fun c => c = openC), t.reverse.findIdx? (fun c => c = closeC) with
  | some i, some k =>
      let j := t.length - 1 - k
      if i < j then some ((t.drop i).take (j - i + 1)) else none
  | _, _ => none

/-- Candidate selection of parseJSONFromText: prefer the span matching the
expected shape; otherwise take the array span, else the object span, else
the whole normalised text (the || chain in the source; a matched span is
never the empty string, hence never falsy). -/
def selectCandidate (t : List Char) (expected : String) : List Char :=
  let objM := bracketSpan lbrChar rbrChar t
  let arrM := bracketSpan lbkChar rbkChar t
  if expected = "array" ∧ arrM.isSome then arrM.getD t
  else if expected = "object" ∧ objM.isSome then objM.getD t
  else
    match arrM with
    | some a => a
    | none =>
        match objM with
        | some o => o
        | none => t

/- ### JSON.parse

A model of JSON.parse over character lists, following the JSON grammar:
structured values, strings with escapes, numbers with optional sign,
fraction and exponent (no leading zeros, no bare dots), true/false/null,
and insignificant whitespace.  The recursion is fuelled; the fuel used by
the wrapper strictly dominates the recursion depth of any input. -/

def hexDigitVal (c : Char) : Option Nat :=
  if c.isDigit then some (c.toNat - 48)
  else if 'a' ≤ c ∧ c ≤ 'f' then some (c.toNat - 87)
  else if 'A' ≤ c ∧ c ≤ 'F' then some (c.toNat - 55)
  else none

def escapeChar (e : Char) : Option Char :=
  if e = dqChar then some dqChar
  else if e = bslChar then some bslChar
  else if e = '/' then some '/'
  else if e = 'b' then some (Char.ofNat 8)
  else if e = 'f' then some (Char.ofNat 12)
  else if e = 'n' then some '\n'
  else if e = 'r' then some '\x0d'
  else if e = 't' then some '\t'
  else none

/-- The characters of a JSON string body up to the closing quote, with the
remainder of the input.  Raw control characters are rejected, escapes are
decoded; a \u escape is decoded through Char.ofNat (code points that are
not scalar values collapse to NUL, a corner the claims never touch). -/
def parseStrBody : List Char → Option (List Char × List Char)
  | [] => none
  | c :: cs =>
      if c = dqChar then some ([], cs)
      else if c = bslChar then
        match cs with
        | [] => none
        | e :: cs2 =>
            if e = 'u' then
              match cs2 with
              | h1 :: h2 :: h3 :: h4 :: cs3 =>
                  match hexDigitVal h1, hexDigitVal h2, hexDigitVal h3, hexDigitVal h4 with
                  | some a, some b, some c3, some d =>
                      match parseStrBody cs3 with
                      | some (acc, r) =>
                          some (Char.ofNat (((a * 16 + b) * 16 + c3) * 16 + d) :: acc, r)
                      | none => none
                  | _, _, _, _ => none
              | _ => none
            else
              match escapeChar e with
              | some ch =>
                  match parseStrBody cs2 with
                  | some (acc, r) => some (ch :: acc, r)
                  | none => none
              | none => none
      else if 32 ≤ c.toNat then
        match parseStrBody cs with
        | some (acc, r) => some (c :: acc, r)
        | none => none
      else none

def natOfDigits (ds : List Char) : Nat :=
  ds.foldl (fun acc c => acc * 10 + (c.toNat - 48)) 0

/-- Exponent digits, with the already-determined sign. -/
def expDigits (negE : Bool) (s : List Char) : Option (Int × List Char) :=
  let ds := s.takeWhile Char.isDigit
  let r := s.dropWhile Char.isDigit
  if ds = [] then none
  else some (if negE then -(natOfDigits ds : Int) else (natOfDigits ds : Int), r)

/-- Optional fraction part: digit value, digit count, remainder. -/
def parseFrac : List Char → Option (Nat × Nat × List Char)
  | [] => some (0, 0, [])
  | c :: r =>
      if c = '.' then
        let fs := r.takeWhile Char.isDigit
        let r2 := r.dropWhile Char.isDigit
        if fs = [] then none else some (natOfDigits fs, fs.length, r2)
      else some (0, 0, c :: r)

/-- Optional exponent part. -/
def parseExp : List Char → Option (Int × List Char)
  | [] => some (0, [])
  | c :: r =>
      if c = 'e' ∨ c = 'E' then
        match r with
        | [] => none
        | c2 :: r2 =>
            if c2 = '+' then expDigits false r2
            else if c2 = '-' then expDigits true r2
            else expDigits false (c2 :: r2)
      else some (0, c :: r)

/-- A JSON number starting at the head of the input (the caller has seen a
minus sign or digit there). -/
def parseNumber (s : List Char) : Option (JVal × List Char) :=
  let signAndRest : Bool × List Char :=
    match s with
    | c :: r => if c = '-' then (true, r) else (false, s)
    | [] => (false, s)
  let ip := signAndRest.2.takeWhile Char.isDigit
  let r1 := signAndRest.2.dropWhile Char.isDigit
  if ip = [] then none
  else if ip.head? = some '0' ∧ 2 ≤ ip.length then none
  else
    match parseFrac r1 with
    | none => none
    | some (fv, fl, r2) =>
        match parseExp r2 with
        | none => none
        | some (e, r3) =>
            let den : Nat := 10 ^ fl
            let mantNum : Nat := natOfDigits ip * den + fv
            let signedMant : Int :=
              if signAndRest.1 then -(mantNum : Int) else (mantNum : Int)
            let q : Rat :=
              if 0 ≤ e then mkRat (signedMant * ((10 : Nat) ^ e.toNat : Nat)) den
              else mkRat signedMant (den * 10 ^ (-e).toNat)
            some (JVal.jnum q, r3)

/-- Case-sensitive literal remainder (for true / false / null). -/
def litRest : List Char → List Char → Option (List Char)
  | [], s => some s
  | _ :: _, [] => none
  | p :: ps, c :: cs => if c = p then litRest ps cs else none

/-- Parser mode: a value, the members of an object after at least one is
required, or the elements of an array after at least one is required. -/
inductive PMode : Type where
  | val : PMode
  | members : List (String × JVal) → PMode
  | elems : List JVal → PMode

/-- The fuelled recursive heart of JSON.parse. -/
def parseGo : Nat → PMode → List Char → Option (JVal × List Char)
  | 0, _, _ => none
  | Nat.succ f, PMode.val, s =>
      match s.dropWhile isJsonWs with
      | [] => none
      | c :: cs =>
          if c = lbrChar then
            match cs.dropWhile isJsonWs with
            | c2 :: cs2 =>
                if c2 = rbrChar then some (JVal.jobj [], cs2)
                else parseGo f (PMode.members []) (c2 :: cs2)
            | [] => none
          else if c = lbkChar then
            match cs.dropWhile isJsonWs with
            | c2 :: cs2 =>
                if c2 = rbkChar then some (JVal.jarr [], cs2)
                else parseGo f (PMode.elems []) (c2 :: cs2)
            | [] => none
          else if c = dqChar then
            match parseStrBody cs with
            | some (str, r) => some (JVal.jstr (String.mk str), r)
            | none => none
          else if c = 't' then
            match litRest ['r', 'u', 'e'] cs with
            | some r => some (JVal.jbool true, r)
            | none => none
          else if c = 'f' then
            match litRest ['a', 'l', 's', 'e'] cs with
            | some r => some (JVal.jbool false, r)
            | none => none
          else if c = 'n' then
            match litRest ['u', 'l', 'l'] cs with
            | some r => some (JVal.jnull, r)
            | none => none
          else if c = '-' ∨ c.isDigit then parseNumber (c :: cs)
          else none
  | Nat.succ f, PMode.members acc, s =>
      match s.dropWhile isJsonWs with
      | [] => none
      | c :: cs =>
          if c = dqChar then
            match parseStrBody cs with
            | some (kcs, r1) =>
                match r1.dropWhile isJsonWs with
                | c2 :: cs2 =>
                    if c2 = ':' then
                      match parseGo f PMode.val cs2 with
                      | some (v, r3) =>
                          let acc2 := objInsert acc (String.mk kcs) v
                          match r3.dropWhile isJsonWs with
                          | c3 :: cs3 =>
                              if c3 = ',' then parseGo f (PMode.members acc2) cs3
                              else if c3 = rbrChar then some (JVal.jobj acc2, cs3)
                              else none
                          | [] => none
                      | none => none
                    else none
                | [] => none
            | none => none
          else none
  | Nat.succ f, PMode.elems acc, s =>
      match parseGo f PMode.val s with
      | some (v, r) =>
          match r.dropWhile isJsonWs with
          | c :: cs =>
              if c = ',' then parseGo f (PMode.elems (acc ++ [v])) cs
              else if c = rbkChar then some (JVal.jarr (acc ++ [v]), cs)
              else none
          | [] => none
      | none => none

/-- JSON.parse: parse one value and insist nothing but whitespace remains;
any violation of the grammar (including the leftovers that my number rule
defers, such as 01) surfaces as none, which models the thrown
SyntaxError being caught at the call sites. -/
def jsonParse (t : List Char) : Option JVal :=
  match parseGo (4 * t.length + 16) PMode.val t with
  | some (v, rest) => if rest.dropWhile isJsonWs = [] then some v else none
  | none => none

/- ### The repair sequence

candidate.replace(A, " ").replace(B, "rbr").replace(C, "rbk")
         .replace(D, dq) followed by the bare-key quoting regex, where
A matches an optional carriage return and a newline, B a comma + spaces +
closing brace, C a comma + spaces + closing bracket, D a single quote. -/

def replNlSp : List Char → List Char
  | [] => []
  | '\x0d' :: '\n' :: rest => ' ' :: replNlSp rest
  | '\n' :: rest => ' ' :: replNlSp rest
  | c :: rest => c :: replNlSp rest

/-- Scanner for the global regex comma + \s* + closeC replaced by closeC.
Backtracking is immaterial: every character skipped by \s* is a space
character, never equal to closeC. -/
def goCommaClose (closeC : Char) : Nat → List Char → List Char
  | 0, s => s
  | Nat.succ _, [] => []
  | Nat.succ f, c :: cs =>
      if c = ',' then
        match cs.dropWhile isJsSpace with
        | c2 :: cs2 =>
            if c2 = closeC then closeC :: goCommaClose closeC f cs2
            else c :: goCommaClose closeC f cs
        | [] => c :: goCommaClose closeC f cs
      else c :: goCommaClose closeC f cs

def commaCloseR (closeC : Char) (s : List Char) : List Char :=
  goCommaClose closeC s.length s

def replQuotes (s : List Char) : List Char :=
  s.map (fun c => if c = sqChar then dqChar else c)

/-- Scanner for the bare-key quoting regex: a brace, comma or space,
then a nonempty word, optional spaces, and a colon; the word is wrapped
in double quotes and the spaces before the colon dropped.  Maximal munch
agrees with the regex since shrinking the word or space run leaves a
word or space character where the colon is required. -/
def goQuoteKeys : Nat → List Char → List Char
  | 0, s => s
  | Nat.succ _, [] => []
  | Nat.succ f, c :: cs =>
      if c = lbrChar ∨ c = ',' ∨ isJsSpace c then
        let w := cs.takeWhile isWordChar
        let r1 := cs.dropWhile isWordChar
        let r2 := r1.dropWhile isJsSpace
        match r2 with
        | c2 :: cs2 =>
            if w ≠ [] ∧ c2 = ':' then
              c :: dqChar :: (w ++ dqChar :: ':' :: goQuoteKeys f cs2)
            else c :: goQuoteKeys f cs
        | [] => c :: goQuoteKeys f cs
      else c :: goQuoteKeys f cs

def quoteKeysR (s : List Char) : List Char := goQuoteKeys s.length s

/-- The full textual repair applied between the two parse attempts. -/
def repairCandidate (c : List Char) : List Char :=
  quoteKeysR (replQuotes (commaCloseR rbkChar (commaCloseR rbrChar (replNlSp c))))

def strictStage (cand : List Char) : Option JVal := jsonParse cand

def repairStage (cand : List Char) : Option JVal := jsonParse (repairCandidate cand)

/-- The candidate text picked out of a raw completion string. -/
def candidateOf (s : String) (expected : String) : List Char :=
  selectCandidate (normalizeText s.data) expected

/-- parseJSONFromText on an actual (non-empty) string argument. -/
def parseText (s : String) (expected : String) : Option JVal :=
  if s = "" then none
  else
    match strictStage (candidateOf s expected) with
    | some v => some v
    | none => repairStage (candidateOf s expected)

/-- The JS argument of parseJSONFromText: the guard
  if (!text || typeof text !== "string") return null
sends null, undefined, every non-string value and the empty string (the
only falsy string) to null before any processing. -/
inductive JsText : Type where
  | jsNull : JsText
  | jsUndefined : JsText
  | nonString : JsText
  | ofString : String → JsText

def parseJSONFromText : JsText → String → Option JVal
  | JsText.ofString s, expected => parseText s expected
  | _, _ => none

/- ### Decimal rendering

JS template literals interpolate numbers in decimal.  Rendering is by
repeated division; the fuel dominates the digit count. -/

def natDigsRev (fuel n : Nat) : List Nat :=
  match fuel with
  | 0 => []
  | Nat.succ f => if n = 0 then [] else (n % 10) :: natDigsRev f (n / 10)

/-- Value of a least-significant-first digit list. -/
def ofDigsRev (ds : List Nat) : Nat :=
  ds.foldr (fun d acc => d + 10 * acc) 0

def natStr (n : Nat) : String :=
  if n = 0 then "0"
  else String.mk ((natDigsRev (n + 1) n).reverse.map Nat.digitChar)

def intStr (i : Int) : String :=
  if i < 0 then "-" ++ natStr (-i).toNat else natStr i.toNat

/- ### Local deterministic generators (server.js, used in fallback mode)

The generators are transcribed from the source; JS counts are Ints whose
loops run (max 0 n) times, and arithmetic is exact rational arithmetic. -/

structure GraphConcept : Type where
  name : String
  level : Int
  description : String
  difficulty : Int
deriving DecidableEq

structure KGraph : Type where
  concepts : List GraphConcept
  dependencies : List (String × List String)
deriving DecidableEq

def conceptName (subject : String) (i : Nat) : String :=
  subject ++ " concept " ++ natStr (i + 1)

/-- Math.min(6, Math.max(1, Math.floor((i / numConcepts) * 6) + 1)). -/
def conceptLevel (i : Nat) (numConcepts : Int) : Int :=
  min 6 (max 1
    ((ratMul (ratDiv (mkRat i 1) (mkRat numConcepts 1)) (mkRat 6 1)).floor + 1))

def generateKnowledgeGraph (subject : String) (numConcepts : Int) : KGraph :=
  let n := numConcepts.toNat
  let concepts := (List.range n).map (fun i =>
    { name := conceptName subject i
      level := conceptLevel i numConcepts
      description := "Auto-generated concept " ++ natStr (i + 1) ++ " for " ++ subject
      difficulty := min 5 ((i : Int) % 5 + 1) })
  let dependencies := (List.range' 1 (n - 1)).map (fun i =>
    (conceptName subject i, [conceptName subject (i - 1)]))
  ⟨concepts, dependencies⟩

def GraphConcept.toJVal (c : GraphConcept) : JVal :=
  JVal.jobj [("name", JVal.jstr c.name), ("level", jint c.level),
    ("description", JVal.jstr c.description), ("difficulty", jint c.difficulty)]

def KGraph.toJVal (g : KGraph) : JVal :=
  JVal.jobj [
    ("concepts", JVal.jarr (g.concepts.map GraphConcept.toJVal)),
    ("dependencies", JVal.jobj (g.dependencies.map (fun p =>
      (p.1, JVal.jarr (p.2.map JVal.jstr)))))]

structure QuizQ : Type where
  id : Int
  question : String
  options : List String
  correctIndex : Int
  explanation : String
deriving DecidableEq

def generateQuizQuestionsLocal (subject topic difficulty : String)
    (numQuestions : Int) : List QuizQ :=
  (List.range numQuestions.toNat).map (fun i =>
    { id := (i : Int) + 1
      question := "Diagnostic " ++ subject ++ " question: Regarding " ++ topic ++
        ", which of these is a key foundational principle?"
      options := ["Standard " ++ topic ++ " practice",
        "Advanced " ++ subject ++ " methodology",
        "Fundamental " ++ topic ++ " theory",
        "None of the above"]
      correctIndex := 2
      explanation := "Understanding the foundational theory of " ++ topic ++
        " is critical for mastering " ++ subject ++ "." })

/-- The fields of a quiz question followed by extra spread-in fields, in
JS object order. -/
def QuizQ.toJValWith (q : QuizQ) (extra : List (String × JVal)) : JVal :=
  JVal.jobj ([("id", jint q.id), ("question", JVal.jstr q.question),
    ("options", JVal.jarr (q.options.map JVal.jstr)),
    ("correctIndex", jint q.correctIndex),
    ("explanation", JVal.jstr q.explanation)] ++ extra)

def QuizQ.toJVal (q : QuizQ) : JVal := q.toJValWith []

def generateStudyPlanLocal (subject : String) (duration : Int)
    (durationUnit : String) : JVal :=
  JVal.jobj [
    ("subject", JVal.jstr subject),
    ("totalDuration", JVal.jstr (intStr duration ++ " " ++ durationUnit)),
    ("dailyStudyTime", JVal.jstr "1-2 hours"),
    ("phases", JVal.jarr [
      JVal.jobj [("name", JVal.jstr "Fundamentals"), ("duration", JVal.jstr "1 week"),
        ("topics", JVal.jarr [JVal.jstr "Basics"]),
        ("objectives", JVal.jarr [JVal.jstr "Learn core concepts"]),
        ("activities", JVal.jarr [JVal.jstr "Read, practice"]),
        ("resources", JVal.jarr [JVal.jstr "Videos"])],
      JVal.jobj [("name", JVal.jstr "Practice"),
        ("duration", JVal.jstr (intStr (max 1 (duration - 2)) ++ " weeks")),
        ("topics", JVal.jarr [JVal.jstr "Problems"]),
        ("objectives", JVal.jarr [JVal.jstr "Apply knowledge"]),
        ("activities", JVal.jarr [JVal.jstr "Exercises"]),
        ("resources", JVal.jarr [JVal.jstr "Practice sets"])],
      JVal.jobj [("name", JVal.jstr "Assessment"), ("duration", JVal.jstr "1 week"),
        ("topics", JVal.jarr [JVal.jstr "Review"]),
        ("objectives", JVal.jarr [JVal.jstr "Solidify understanding"]),
        ("activities", JVal.jarr [JVal.jstr "Mock tests"]),
        ("resources", JVal.jarr [JVal.jstr "Tests"])]]),
    ("milestones", JVal.jarr [JVal.jobj [("week", jint 1),
      ("milestone", JVal.jstr "Foundations"), ("metrics", JVal.jstr "70%+")]]),
    ("dailySchedule", JVal.jobj [
      ("Monday", JVal.jarr [JVal.jstr "Concept review", JVal.jstr "Practice"]),
      ("Tuesday", JVal.jarr [JVal.jstr "New concept", JVal.jstr "Examples"])]),
    ("resources", JVal.jarr [JVal.jstr "YouTube", JVal.jstr "Khan Academy"]),
    ("tips", JVal.jarr [JVal.jstr "Study consistently", JVal.jstr "Active practice"])]

def generateCompleteLearningModuleLocal (subject topic : String) : JVal :=
  JVal.jobj [
    ("basics", JVal.jarr [
      JVal.jobj [("concept", JVal.jstr "Foundation"), ("definition", JVal.jstr "Basic principles")],
      JVal.jobj [("concept", JVal.jstr "Core"), ("definition", JVal.jstr "Core ideas")]]),
    ("flowchart", JVal.jarr [
      JVal.jobj [("step", jint 1), ("title", JVal.jstr "Start"),
        ("description", JVal.jstr "Learn basics")],
      JVal.jobj [("step", jint 2), ("title", JVal.jstr "Practice"),
        ("description", JVal.jstr "Do exercises")]]),
    ("quiz", JVal.jarr ((generateQuizQuestionsLocal subject topic "medium" 3).map QuizQ.toJVal)),
    ("youtubeTopics", JVal.jarr [JVal.jstr (subject ++ " " ++ topic ++ " basics"),
      JVal.jstr (subject ++ " " ++ topic ++ " tutorial")]),
    ("recapTimetable", JVal.jobj [
      ("Monday", JVal.jarr [JVal.jstr "Review basics", JVal.jstr "Practice problems"]),
      ("Tuesday", JVal.jarr [JVal.jstr "Watch tutorial"])]),
    ("conceptMap", JVal.jarr [
      JVal.jobj [("name", JVal.jstr "Foundation"), ("type", JVal.jstr "foundational")],
      JVal.jobj [("name", JVal.jstr "Core"), ("type", JVal.jstr "intermediate")]])]

def generateQuizAssignmentsLocal (subject topic : String)
    (numAssignments : Int) : JVal :=
  JVal.jobj [
    ("importantTopics", JVal.jarr [JVal.jobj [("name", JVal.jstr topic),
      ("priority", JVal.jstr "high"),
      ("prerequisites", JVal.jarr [JVal.jstr "foundation"])]]),
    ("assignments", JVal.jarr ((List.range numAssignments.toNat).map (fun (i : Nat) =>
      JVal.jobj [("id", jint ((i : Int) + 1)),
        ("title", JVal.jstr (topic ++ " assignment " ++ natStr (i + 1))),
        ("dueInDays", jint (3 + (i : Int))),
        ("quiz", JVal.jarr ((generateQuizQuestionsLocal subject topic "easy" 3).map QuizQ.toJVal))])))]

def generateAiQuizLocal (subject topic : String) (numQuestions : Int) : JVal :=
  JVal.jobj [
    ("importantTopics", JVal.jarr [JVal.jobj [("name", JVal.jstr topic),
      ("priority", JVal.jstr "high"),
      ("prerequisites", JVal.jarr [JVal.jstr "foundation"])]]),
    ("quiz", JVal.jarr ((generateQuizQuestionsLocal subject topic "medium" numQuestions).map QuizQ.toJVal))]

def getDefaultLearningModule (subject topic : String) : JVal :=
  JVal.jobj [
    ("basics", JVal.jarr [
      JVal.jobj [("concept", JVal.jstr "Foundation"),
        ("definition", JVal.jstr "Basic principles and definitions")],
      JVal.jobj [("concept", JVal.jstr "Core Concept"),
        ("definition", JVal.jstr "Essential understanding of the topic")],
      JVal.jobj [("concept", JVal.jstr "Application"),
        ("definition", JVal.jstr "How to use this knowledge")]]),
    ("flowchart", JVal.jarr [
      JVal.jobj [("step", jint 1), ("title", JVal.jstr "Learn Basics"),
        ("description", JVal.jstr "Understand fundamental concepts")],
      JVal.jobj [("step", jint 2), ("title", JVal.jstr "Practice"),
        ("description", JVal.jstr "Apply knowledge through problems")],
      JVal.jobj [("step", jint 3), ("title", JVal.jstr "Master"),
        ("description", JVal.jstr "Achieve mastery through assessment")]]),
    ("quiz", JVal.jarr [
      JVal.jobj [("id", jint 1),
        ("question", JVal.jstr "What is the first step in learning?"),
        ("options", JVal.jarr [JVal.jstr "Foundation", JVal.jstr "Application",
          JVal.jstr "Testing", JVal.jstr "Review"]),
        ("correctIndex", jint 0),
        ("explanation", JVal.jstr "Learning begins with understanding the basics")]]),
    ("youtubeTopics", JVal.jarr [
      JVal.jstr (subject ++ " " ++ topic ++ " basics"),
      JVal.jstr (subject ++ " " ++ topic ++ " tutorial"),
      JVal.jstr (subject ++ " " ++ topic ++ " explained"),
      JVal.jstr (subject ++ " " ++ topic ++ " practice problems"),
      JVal.jstr (subject ++ " " ++ topic ++ " advanced")]),
    ("recapTimetable", JVal.jobj [
      ("Monday", JVal.jarr [JVal.jstr "09:00 - Learn basics (60 min)",
        JVal.jstr "10:00 - Understand concepts (30 min)"]),
      ("Tuesday", JVal.jarr [JVal.jstr "09:00 - Watch tutorial (45 min)",
        JVal.jstr "09:45 - Practice problems (45 min)"]),
      ("Wednesday", JVal.jarr [JVal.jstr "10:00 - Concept review (60 min)",
        JVal.jstr "11:00 - Self-assessment (30 min)"]),
      ("Thursday", JVal.jarr [JVal.jstr "09:00 - Problem solving (90 min)",
        JVal.jstr "10:30 - Review mistakes (30 min)"]),
      ("Friday", JVal.jarr [JVal.jstr "10:00 - Practice test (60 min)",
        JVal.jstr "11:00 - Week recap (30 min)"]),
      ("Saturday", JVal.jarr [JVal.jstr "10:00 - Extra practice (90 min)",
        JVal.jstr "11:30 - Resource exploration (30 min)"]),
      ("Sunday", JVal.jarr [JVal.jstr "10:00 - Light review (30 min)",
        JVal.jstr "10:30 - Plan next week (30 min)"])]),
    ("conceptMap", JVal.jarr [
      JVal.jobj [("name", JVal.jstr "Foundation"), ("type", JVal.jstr "foundational")],
      JVal.jobj [("name", JVal.jstr "Core Concept"), ("type", JVal.jstr "intermediate")],
      JVal.jobj [("name", JVal.jstr "Application"), ("type", JVal.jstr "intermediate")],
      JVal.jobj [("name", JVal.jstr "Advanced Topic"), ("type", JVal.jstr "advanced")]])]

/- ### Route handlers

Each handler is a function of the fallback-mode flag (USE_LOCAL_AI), the
request body (JSON bodies with possibly-missing fields, as produced by
express.json) and the outcome of the single upstream call, modelled as
Except: error carries the message of the exception thrown by
callGoogleAPI, ok carries the completion text.  The Outcome records
whether the upstream client was invoked and the HTTP result: either a
response that was sent, or a crash (an exception escaping the handler, in
which case no response with this status is produced by the route). -/

inductive HttpResult : Type where
  | sent : Nat → JVal → HttpResult
  | crashed : String → HttpResult

structure Outcome : Type where
  calledAPI : Bool
  result : HttpResult

def HttpResult.statusOf : HttpResult → Option Nat
  | HttpResult.sent st _ => some st
  | HttpResult.crashed _ => none

/-- `o || "dflt"` on an optional JS string: both a missing field and the
empty string are replaced. -/
def jsOrStr (o : Option String) (dflt : String) : String :=
  match o with
  | some s => if s = "" then dflt else s
  | none => dflt

structure KgBody : Type where
  subject : Option String
  numConcepts : Option Int

structure QqBody : Type where
  subject : Option String
  topic : Option String
  difficulty : Option String
  numQuestions : Option Int

structure SpBody : Type where
  subject : Option String
  duration : Option Int
  durationUnit : Option String

structure ClmBody : Type where
  subject : Option String
  topic : Option String

structure QaBody : Type where
  subject : Option String
  topic : Option String
  numAssignments : Option Int

structure UserProfileBody : Type where
  successRate : Option Int
  skillLevel : Option String

structure AqBody : Type where
  subject : Option String
  topic : Option String
  userProfile : Option UserProfileBody
  numQuestions : Option Int

/- The per-route validation applied to the parsed upstream response,
straight from each route: these are the required-top-level-field checks
(the negation of the if conditions guarding the 400/throw paths). -/

def validKgResp (v : JVal) : Bool := v.truthy && v.truthyField "concepts"

def validQqResp (v : JVal) : Bool := v.isArr

def validSpResp (v : JVal) : Bool := v.truthy && v.truthyField "phases"

def validClmResp (v : JVal) : Bool := v.truthy && v.truthyField "basics"

def validQaResp (v : JVal) : Bool := v.truthy && v.truthyField "importantTopics"

def validAqResp (v : JVal) : Bool :=
  v.truthy && (v.truthyField "quiz" || v.truthyField "importantTopics")

/-- The catch block of POST /api/knowledge-graph: a 500 response carrying
the error message and a locally generated fallback.  The fallback call
passes the raw body fields, so missing fields here get the function
defaults Mathematics and 6 (not the handler defaults). -/
def kgCatch (body : KgBody) (e : String) : Outcome :=
  ⟨true, HttpResult.sent 500 (JVal.jobj [("error", JVal.jstr e),
    ("fallback", (generateKnowledgeGraph (body.subject.getD "Mathematics")
      (body.numConcepts.getD 6)).toJVal)])⟩

/-- POST /api/knowledge-graph. -/
def kgHandler (useLocalAI : Bool) (body : KgBody)
    (upstream : Except String String) : Outcome :=
  let subject := body.subject.getD "Mathematics"
  let numConcepts := body.numConcepts.getD 12
  if useLocalAI then
    ⟨false, HttpResult.sent 200 (generateKnowledgeGraph subject numConcepts).toJVal⟩
  else
    match upstream with
    | Except.error e => kgCatch body e
    | Except.ok resp =>
        match parseText resp "object" with
        | some parsed =>
            if validKgResp parsed then ⟨true, HttpResult.sent 200 parsed⟩
            else kgCatch body "Invalid AI response"
        | none => kgCatch body "Invalid AI response"

/-- The local-mode payload of POST /api/quiz-questions: the generated
questions with targetConcept/prerequisiteGap spread in. -/
def qqLocalPayload (subject topic difficulty : String) (numQuestions : Int) : JVal :=
  JVal.jarr ((generateQuizQuestionsLocal subject topic difficulty numQuestions).map
    (fun q => q.toJValWith [("targetConcept", JVal.jstr topic),
      ("prerequisiteGap", JVal.jstr "Basic understanding")]))

/-- The catch block of POST /api/quiz-questions; the fallback passes raw
body fields, so missing fields get the generator defaults
(Personalized Study, Basics, medium, 3). -/
def qqCatch (body : QqBody) (e : String) : Outcome :=
  ⟨true, HttpResult.sent 500 (JVal.jobj [("error", JVal.jstr e),
    ("fallback", JVal.jarr ((generateQuizQuestionsLocal
      (body.subject.getD "Personalized Study") (body.topic.getD "Basics")
      (body.difficulty.getD "medium") (body.numQuestions.getD 3)).map QuizQ.toJVal))])⟩

/-- POST /api/quiz-questions. -/
def qqHandler (useLocalAI : Bool) (body : QqBody)
    (upstream : Except String String) : Outcome :=
  let subject := body.subject.getD "Mathematics"
  let topic := body.topic.getD "basics"
  let difficulty := body.difficulty.getD "medium"
  let numQuestions := body.numQuestions.getD 3
  if useLocalAI then
    ⟨false, HttpResult.sent 200 (qqLocalPayload subject topic difficulty numQuestions)⟩
  else
    match upstream with
    | Except.error e => qqCatch body e
    | Except.ok resp =>
        match parseText resp "array" with
        | some parsed =>
            if validQqResp parsed then ⟨true, HttpResult.sent 200 parsed⟩
            else qqCatch body "Invalid AI response"
        | none => qqCatch body "Invalid AI response"

/-- The 400 fallback literal of POST /api/study-plan (validation
failure). -/
def spFallback400 (subject : String) (duration : Int) (durationUnit : String) : JVal :=
  JVal.jobj [
    ("subject", JVal.jstr subject),
    ("totalDuration", JVal.jstr (intStr duration ++ " " ++ durationUnit)),
    ("dailyStudyTime", JVal.jstr "2-3 hours"),
    ("phases", JVal.jarr [
      JVal.jobj [("name", JVal.jstr "Fundamentals"), ("duration", JVal.jstr "1 week"),
        ("topics", JVal.jarr [JVal.jstr "Basics"]),
        ("objectives", JVal.jarr [JVal.jstr "Learn core concepts"]),
        ("activities", JVal.jarr [JVal.jstr "Study, practice problems"]),
        ("resources", JVal.jarr [JVal.jstr "Videos, textbooks"])],
      JVal.jobj [("name", JVal.jstr "Intermediate"), ("duration", JVal.jstr "2 weeks"),
        ("topics", JVal.jarr [JVal.jstr "Application"]),
        ("objectives", JVal.jarr [JVal.jstr "Apply concepts"]),
        ("activities", JVal.jarr [JVal.jstr "Problem solving"]),
        ("resources", JVal.jarr [JVal.jstr "Practice sets"])],
      JVal.jobj [("name", JVal.jstr "Mastery"), ("duration", JVal.jstr "1 week"),
        ("topics", JVal.jarr [JVal.jstr "Advanced"]),
        ("objectives", JVal.jarr [JVal.jstr "Master the subject"]),
        ("activities", JVal.jarr [JVal.jstr "Assessments"]),
        ("resources", JVal.jarr [JVal.jstr "Tests, projects"])]]),
    ("milestones", JVal.jarr [
      JVal.jobj [("week", jint 1), ("milestone", JVal.jstr "Learn foundations"),
        ("metrics", JVal.jstr "70%+ on basics")],
      JVal.jobj [("week", jint 3), ("milestone", JVal.jstr "Apply knowledge"),
        ("metrics", JVal.jstr "80%+ on practice")],
      JVal.jobj [("week", jint 4), ("milestone", JVal.jstr "Achieve mastery"),
        ("metrics", JVal.jstr "90%+ on assessment")]]),
    ("tips", JVal.jarr [JVal.jstr "Study consistently daily",
      JVal.jstr "Take breaks every 45 mins",
      JVal.jstr "Review previous concepts",
      JVal.jstr "Practice actively, not passively"])]

/-- The 500 fallback literal of POST /api/study-plan (thrown error). -/
def spFallback500 (subject : String) (duration : Int) (durationUnit : String) : JVal :=
  JVal.jobj [
    ("subject", JVal.jstr subject),
    ("totalDuration", JVal.jstr (intStr duration ++ " " ++ durationUnit)),
    ("dailyStudyTime", JVal.jstr "2-3 hours"),
    ("phases", JVal.jarr [
      JVal.jobj [("name", JVal.jstr "Fundamentals"), ("duration", JVal.jstr "1 week"),
        ("topics", JVal.jarr [JVal.jstr "Basics"]),
        ("objectives", JVal.jarr [JVal.jstr "Learn"]),
        ("activities", JVal.jarr [JVal.jstr "Study"]),
        ("resources", JVal.jarr [JVal.jstr "Resources"])]]),
    ("tips", JVal.jarr [JVal.jstr "Study daily", JVal.jstr "Take breaks",
      JVal.jstr "Practice"])]

/-- POST /api/study-plan (the body is destructured before the try block,
so the catch block sees the handler defaults). -/
def spHandler (useLocalAI : Bool) (body : SpBody)
    (upstream : Except String String) : Outcome :=
  let subject := body.subject.getD "Mathematics"
  let duration := body.duration.getD 4
  let durationUnit := body.durationUnit.getD "weeks"
  if useLocalAI then
    ⟨false, HttpResult.sent 200 (generateStudyPlanLocal subject duration durationUnit)⟩
  else
    match upstream with
    | Except.error e =>
        ⟨true, HttpResult.sent 500 (JVal.jobj [("error", JVal.jstr e),
          ("fallback", spFallback500 subject duration durationUnit)])⟩
    | Except.ok resp =>
        match parseText resp "object" with
        | some parsed =>
            if validSpResp parsed then ⟨true, HttpResult.sent 200 parsed⟩
            else
              ⟨true, HttpResult.sent 400 (JVal.jobj
                [("error", JVal.jstr "Invalid response from AI"),
                 ("fallback", spFallback400 subject duration durationUnit)])⟩
        | none =>
            ⟨true, HttpResult.sent 400 (JVal.jobj
              [("error", JVal.jstr "Invalid response from AI"),
               ("fallback", spFallback400 subject duration durationUnit)])⟩

/-- POST /api/complete-learning-module (destructured before the try
block; its catch block re-reads req.body with JS || defaults). -/
def clmHandler (useLocalAI : Bool) (body : ClmBody)
    (upstream : Except String String) : Outcome :=
  let subject := body.subject.getD "Mathematics"
  let topic := body.topic.getD "basics"
  if useLocalAI then
    ⟨false, HttpResult.sent 200 (generateCompleteLearningModuleLocal subject topic)⟩
  else
    match upstream with
    | Except.error e =>
        ⟨true, HttpResult.sent 500 (JVal.jobj [("error", JVal.jstr e),
          ("fallback", getDefaultLearningModule (jsOrStr body.subject "Mathematics")
            (jsOrStr body.topic "basics"))])⟩
    | Except.ok resp =>
        match parseText resp "object" with
        | some parsed =>
            if validClmResp parsed then ⟨true, HttpResult.sent 200 parsed⟩
            else
              ⟨true, HttpResult.sent 400 (JVal.jobj
                [("error", JVal.jstr "Invalid response from AI"),
                 ("fallback", getDefaultLearningModule subject topic)])⟩
        | none =>
            ⟨true, HttpResult.sent 400 (JVal.jobj
              [("error", JVal.jstr "Invalid response from AI"),
               ("fallback", getDefaultLearningModule subject topic)])⟩

/-- The 400 fallback literal of POST /api/quiz-assignments. -/
def qaFallback400 (topic : String) : JVal :=
  JVal.jobj [
    ("importantTopics", JVal.jarr [JVal.jobj [("name", JVal.jstr topic),
      ("priority", JVal.jstr "high"),
      ("prerequisites", JVal.jarr [JVal.jstr "foundation"])]]),
    ("assignments", JVal.jarr [JVal.jobj [("id", jint 1),
      ("title", JVal.jstr ("Intro " ++ topic)), ("dueInDays", jint 3),
      ("quiz", JVal.jarr [JVal.jobj [("id", jint 1),
        ("question", JVal.jstr "What is 1+1?"),
        ("options", JVal.jarr [JVal.jstr "1", JVal.jstr "2", JVal.jstr "3", JVal.jstr "4"]),
        ("correctIndex", jint 1),
        ("explanation", JVal.jstr "1+1=2")]])]])]

/-- The 500 fallback of POST /api/quiz-assignments. -/
def qaFallback500 (subject topic : String) : JVal :=
  JVal.jobj [
    ("importantTopics", JVal.jarr [JVal.jobj [("name", JVal.jstr topic),
      ("priority", JVal.jstr "high"),
      ("prerequisites", JVal.jarr [JVal.jstr "Foundation"])]]),
    ("assignments", JVal.jarr [JVal.jobj [("id", jint 1),
      ("title", JVal.jstr ("Introduction to " ++ topic)), ("dueInDays", jint 3),
      ("quiz", JVal.jarr ((generateQuizQuestionsLocal subject topic "easy" 3).map
        QuizQ.toJVal))]])]

/-- POST /api/quiz-assignments (destructured before the try block). -/
def qaHandler (useLocalAI : Bool) (body : QaBody)
    (upstream : Except String String) : Outcome :=
  let subject := body.subject.getD "Mathematics"
  let topic := body.topic.getD "basics"
  let numAssignments := body.numAssignments.getD 3
  if useLocalAI then
    ⟨false, HttpResult.sent 200 (generateQuizAssignmentsLocal subject topic numAssignments)⟩
  else
    match upstream with
    | Except.error e =>
        ⟨true, HttpResult.sent 500 (JVal.jobj [("error", JVal.jstr e),
          ("fallback", qaFallback500 subject topic)])⟩
    | Except.ok resp =>
        match parseText resp "object" with
        | some parsed =>
            if validQaResp parsed then ⟨true, HttpResult.sent 200 parsed⟩
            else
              ⟨true, HttpResult.sent 400 (JVal.jobj
                [("error", JVal.jstr "Invalid response from AI"),
                 ("fallback", qaFallback400 topic)])⟩
        | none =>
            ⟨true, HttpResult.sent 400 (JVal.jobj
              [("error", JVal.jstr "Invalid response from AI"),
               ("fallback", qaFallback400 topic)])⟩

/- ### POST /api/ai-quiz -/

/-- The fixed-threshold difficulty tier derived from a numeric success
rate (the body of the successRate branch of the ai-quiz route; parseInt
on an integer-valued field is the identity, and an absent field is first
replaced by 0 through ||, so the result is never NaN on these inputs). -/
def difficultyFromRate (s : Int) : String :=
  if 85 ≤ s then "expert"
  else if 70 ≤ s then "hard"
  else if 50 ≤ s then "medium"
  else "easy"

/-- let difficulty of the ai-quiz route.  With successRate either absent
or an integer, parseInt(userProfile.successRate || 0, 10) is
successRate.getD 0 and never NaN, so the skillLevel ladder is
unreachable for such profiles. -/
def deriveAiDifficulty (p : UserProfileBody) : String :=
  difficultyFromRate (p.successRate.getD 0)

/-- Natural-order rank of the four tiers, for monotonicity statements. -/
def difficultyRank (d : String) : Nat :=
  if d = "easy" then 0
  else if d = "medium" then 1
  else if d = "hard" then 2
  else if d = "expert" then 3
  else 4

def aiImportantTopics (topic : String) : JVal :=
  JVal.jarr [JVal.jobj [("name", JVal.jstr topic), ("priority", JVal.jstr "high"),
    ("prerequisites", JVal.jarr [JVal.jstr "Foundation"])]]

/-- The bindings visible inside the catch block of the ai-quiz route: the
handler-scope consts (subject, topic, userProfile as an object, elided
here, numQuestions) and the catch parameter.  The let difficulty binding
is declared inside the try block and is therefore NOT visible in the
catch block (JS block scoping). -/
def aiQuizCatchEnv (subject topic : String) (numQuestions : Int)
    (e : String) : List (String × JVal) :=
  [("subject", JVal.jstr subject), ("topic", JVal.jstr topic),
   ("numQuestions", jint numQuestions), ("error", JVal.jstr e)]

/-- The catch block of the ai-quiz route.  Its body evaluates
generateQuizQuestionsLocal(subject, topic, difficulty, numQuestions)
inside the res.status(500).json argument; the identifier difficulty must
be resolved in the catch scope, where it is not bound, so evaluation
throws a ReferenceError before any response is sent. -/
def aiQuizCatch (subject topic : String) (numQuestions : Int)
    (e : String) : HttpResult :=
  match (aiQuizCatchEnv subject topic numQuestions e).lookup "difficulty" with
  | some (JVal.jstr d) =>
      HttpResult.sent 500 (JVal.jobj [("error", JVal.jstr e),
        ("fallback", JVal.jobj [("importantTopics", aiImportantTopics topic),
          ("quiz", JVal.jarr ((generateQuizQuestionsLocal subject topic d
            numQuestions).map QuizQ.toJVal))])])
  | some _ => HttpResult.crashed "TypeError"
  | none => HttpResult.crashed "ReferenceError: difficulty is not defined"

/-- POST /api/ai-quiz. -/
def aqHandler (useLocalAI : Bool) (body : AqBody)
    (upstream : Except String String) : Outcome :=
  let subject := body.subject.getD "General"
  let topic := body.topic.getD "basics"
  let userProfile := body.userProfile.getD ⟨none, none⟩
  let numQuestions := body.numQuestions.getD 5
  let difficulty := deriveAiDifficulty userProfile
  if useLocalAI then
    ⟨false, HttpResult.sent 200 (JVal.jobj
      [("importantTopics", aiImportantTopics topic),
       ("quiz", JVal.jarr ((generateQuizQuestionsLocal subject topic difficulty
         numQuestions).map QuizQ.toJVal))])⟩
  else
    match upstream with
    | Except.error e => ⟨true, aiQuizCatch subject topic numQuestions e⟩
    | Except.ok resp =>
        match parseText resp "object" with
        | some parsed =>
            if validAqResp parsed then ⟨true, HttpResult.sent 200 parsed⟩
            else
              ⟨true, HttpResult.sent 400 (JVal.jobj
                [("error", JVal.jstr "Invalid response from AI"),
                 ("fallback", JVal.jobj [("importantTopics", aiImportantTopics topic),
                   ("quiz", JVal.jarr ((generateQuizQuestionsLocal subject topic
                     difficulty numQuestions).map QuizQ.toJVal))])])⟩
        | none =>
            ⟨true, HttpResult.sent 400 (JVal.jobj
              [("error", JVal.jstr "Invalid response from AI"),
               ("fallback", JVal.jobj [("importantTopics", aiImportantTopics topic),
                 ("quiz", JVal.jarr ((generateQuizQuestionsLocal subject topic
                   difficulty numQuestions).map QuizQ.toJVal))])])⟩

/- ### Client-side learner profile (script.js) -/

structure SessionEntry : Type where
  score : Option Rat
  duration : Option Rat

structure LearnerProfile : Type where
  skillLevel : String
  pace : String
  consistency : String
  successRate : Int
deriving DecidableEq

/-- The constructor-time profile of LearningEngine. -/
def initialLearnerProfile : LearnerProfile :=
  ⟨"beginner", "medium", "low", 0⟩

def sumRats (l : List Rat) : Rat := l.foldl ratAdd (mkRat 0 1)

/-- Math.round: floor of x + 1/2. -/
def jsRound (q : Rat) : Int := (ratAdd q (mkRat 1 2)).floor

/-- Boolean a ≤ b on rationals. -/
def ratLe (a b : Rat) : Bool := !(Rat.blt b a)

/-- LearningEngine.analyzeLearnerProfile.  The method reads and writes
this.learnerProfile: on an empty (or missing) history it returns the
stored profile unchanged; otherwise it recomputes the profile from the
history alone and overwrites the stored one.  The function returns the
new stored profile, which is also the returned value. -/
def analyzeLearnerProfile (stored : LearnerProfile)
    (sessionData : List SessionEntry) : LearnerProfile :=
  if sessionData.length = 0 then stored
  else
    let n : Rat := mkRat sessionData.length 1
    let avgScore := ratDiv (sumRats (sessionData.map (fun s => s.score.getD (mkRat 0 1)))) n
    let avgDuration := ratDiv (sumRats (sessionData.map (fun s => s.duration.getD (mkRat 0 1)))) n
    let successRate := ratDiv (mkRat ((sessionData.filter (fun s =>
      match s.score with
      | some q => ratLe (mkRat 70 1) q
      | none => false)).length) 1) n
    { skillLevel :=
        if ratLt avgScore (mkRat 40 1) then "beginner"
        else if ratLt avgScore (mkRat 70 1) then "intermediate"
        else "advanced"
      pace :=
        if ratLt avgDuration (mkRat 300 1) then "fast"
        else if ratLt avgDuration (mkRat 900 1) then "medium"
        else "slow"
      consistency :=
        if 10 < sessionData.length then "high"
        else if 5 < sessionData.length then "medium"
        else "low"
      successRate := jsRound (ratMul successRate (mkRat 100 1)) }

/- ### Auxiliary definitions for the stated properties -/

/-- An error response of a content route always carries both an error
message and a locally generated fallback payload; a handler outcome
satisfies this when it either succeeded (200) or produced a 400/500 JSON
body having both fields.  A crash (no response sent) violates it. -/
def errorCarriesFallback (o : Outcome) : Prop :=
  match o.result with
  | HttpResult.sent st b =>
      st = 200 ∨ ((st = 400 ∨ st = 500) ∧
        (b.getField "error").isSome = true ∧ (b.getField "fallback").isSome = true)
  | HttpResult.crashed _ => False

/-- Shape check of one rendered quiz question: exactly 4 options and
correctIndex 2. -/
def questionShape (q : JVal) : Bool :=
  (match q.getField "options" with
   | some (JVal.jarr os) => os.length == 4
   | _ => false) &&
  (match q.getField "correctIndex" with
   | some (JVal.jnum r) => r == mkRat 2 1
   | _ => false)

/- Bodies with the missing fields replaced by the documented per-route
destructuring defaults. -/

def fillKg (b : KgBody) : KgBody :=
  ⟨some (b.subject.getD "Mathematics"), some (b.numConcepts.getD 12)⟩

def fillQq (b : QqBody) : QqBody :=
  ⟨some (b.subject.getD "Mathematics"), some (b.topic.getD "basics"),
   some (b.difficulty.getD "medium"), some (b.numQuestions.getD 3)⟩

def fillSp (b : SpBody) : SpBody :=
  ⟨some (b.subject.getD "Mathematics"), some (b.duration.getD 4),
   some (b.durationUnit.getD "weeks")⟩

def fillClm (b : ClmBody) : ClmBody :=
  ⟨some (b.subject.getD "Mathematics"), some (b.topic.getD "basics")⟩

def fillQa (b : QaBody) : QaBody :=
  ⟨some (b.subject.getD "Mathematics"), some (b.topic.getD "basics"),
   some (b.numAssignments.getD 3)⟩

def fillAq (b : AqBody) : AqBody :=
  ⟨some (b.subject.getD "General"), some (b.topic.getD "basics"),
   some (b.userProfile.getD ⟨none, none⟩), some (b.numQuestions.getD 5)⟩

/- ### Markdown code-fence wrapping (for the extractor properties) -/

def fenceJsonNl : List Char := [btChar, btChar, btChar, 'j', 's', 'o', 'n', '\n']

def fencePlainNl : List Char := [btChar, btChar, btChar, '\n']

def nlFence : List Char := ['\n', btChar, btChar, btChar]

/-- t wrapped in a json-tagged markdown code fence. -/
def wrapJson (t : String) : String := String.mk (fenceJsonNl ++ t.data ++ nlFence)

/-- t wrapped in a plain markdown code fence. -/
def wrapPlain (t : String) : String := String.mk (fencePlainNl ++ t.data ++ nlFence)

/- ### The prerequisite relation derived from a knowledge graph -/

/-- a is a prerequisite of b: the dependencies map sends b to a list
containing a (the client derives the edge a → b from this). -/
def depRel (g : KGraph) (a b : String) : Prop :=
  ∃ l, g.dependencies.lookup b = some l ∧ a ∈ l

/- ### Theorems -/

/-- C3 counterexample: analyzeLearnerProfile is NOT a pure function of the
history array.  After one call with a non-empty history mutates the
stored profile, a call with the empty history returns that stored
profile, so two calls with the identical (empty) history disagree
depending on the stored intermediate state. -/
theorem analyzeLearnerProfile_stateful_counterexample :
    analyzeLearnerProfile (analyzeLearnerProfile initialLearnerProfile
      [⟨some (mkRat 80 1), some (mkRat 100 1)⟩]) [] ≠
    analyzeLearnerProfile initialLearnerProfile [] := by
  decide

/-- C3 (amended): on every NON-empty history, analyzeLearnerProfile is a
pure function of the history array alone — the stored profile does not
influence the result; on an empty or missing history it returns the
stored profile from the previous call instead. -/
theorem analyzeLearnerProfile_pure_on_nonempty (p q : LearnerProfile)
    (h : List SessionEntry) (hne : h ≠ []) :
    analyzeLearnerProfile p h = analyzeLearnerProfile q h := by
  have hl : ¬ (h.length = 0) := by simpa [List.length_eq_zero] using hne
  simp only [analyzeLearnerProfile, if_neg hl]

/-- C3 amended witness at a concrete non-empty history. -/
theorem analyzeLearnerProfile_pure_on_nonempty_witness :
    ([⟨some (mkRat 80 1), some (mkRat 100 1)⟩] : List SessionEntry) ≠ [] ∧
    analyzeLearnerProfile initialLearnerProfile
      [⟨some (mkRat 80 1), some (mkRat 100 1)⟩] =
    analyzeLearnerProfile ⟨"advanced", "slow", "high", 93⟩
      [⟨some (mkRat 80 1), some (mkRat 100 1)⟩] :=
  ⟨List.cons_ne_nil _ _,
   analyzeLearnerProfile_pure_on_nonempty _ _ _ (List.cons_ne_nil _ _)⟩

/-- C4: the ai-quiz difficulty derivation is monotone in the numeric
successRate, follows the inclusive thresholds 50/70/85, yields
easy/medium/hard/expert at 0/50/70/85, and is what the route applies to
a profile carrying a numeric successRate. -/
theorem aiQuiz_difficulty_monotone_thresholds :
    (∀ s t : Int, s ≤ t →
      difficultyRank (difficultyFromRate s) ≤ difficultyRank (difficultyFromRate t)) ∧
    (∀ s : Int,
      (difficultyFromRate s = "expert" ↔ 85 ≤ s) ∧
      (difficultyFromRate s = "hard" ↔ 70 ≤ s ∧ s < 85) ∧
      (difficultyFromRate s = "medium" ↔ 50 ≤ s ∧ s < 70) ∧
      (difficultyFromRate s = "easy" ↔ s < 50)) ∧
    difficultyFromRate 0 = "easy" ∧ difficultyFromRate 50 = "medium" ∧
    difficultyFromRate 70 = "hard" ∧ difficultyFromRate 85 = "expert" ∧
    (∀ (p : UserProfileBody) (s : Int), p.successRate = some s →
      deriveAiDifficulty p = difficultyFromRate s) := by
  refine ⟨?_, ?_, rfl, rfl, rfl, rfl, ?_⟩
  · intro s t hst
    unfold difficultyFromRate
    split_ifs <;> first | decide | omega
  · intro s
    unfold difficultyFromRate
    refine ⟨?_, ?_, ?_, ?_⟩ <;> split_ifs <;> constructor <;> intro h <;>
      first
      | rfl
      | omega
      | exact absurd h (by decide)
  · intro p s hp
    simp [deriveAiDifficulty, hp]

/-- C4 witness: the monotonicity part applied at 0 ≤ 50, and the route
derivation applied to a concrete profile. -/
theorem aiQuiz_difficulty_monotone_thresholds_witness :
    difficultyRank (difficultyFromRate 0) ≤ difficultyRank (difficultyFromRate 50) ∧
    deriveAiDifficulty ⟨some 85, none⟩ = difficultyFromRate 85 :=
  ⟨aiQuiz_difficulty_monotone_thresholds.1 0 50 (by decide),
   aiQuiz_difficulty_monotone_thresholds.2.2.2.2.2.2 ⟨some 85, none⟩ 85 rfl⟩

/-- C5 counterexample: recovery of unquoted-key/trailing-comma object
literals is not universal.  For the input (in JS source)
  \x7ba: "1,\x7d",\x7d
whose intended value is the object with "1,\x7d" stored under key a, the
comma-before-brace repair also fires INSIDE the string value, so the
extractor returns the object storing "1\x7d" — a parse different from the
intended object. -/
theorem parseJSONFromText_repair_mangles_value :
    parseJSONFromText (JsText.ofString "\x7ba: \"1,\x7d\",\x7d") "object" =
      some (JVal.jobj [("a", JVal.jstr "1\x7d")]) ∧
    some (JVal.jobj [("a", JVal.jstr "1\x7d")]) ≠
      some (JVal.jobj [("a", JVal.jstr "1,\x7d")]) := by
  refine ⟨rfl, ?_⟩
  intro h
  rw [Option.some.injEq, JVal.jobj.injEq, List.cons.injEq, Prod.mk.injEq,
    JVal.jstr.injEq] at h
  exact absurd h.1.2 (by decide)

/-- C5 (amended): the extractor does recover the exemplified
unquoted-key/trailing-comma inputs — \x7bname: "x",\x7d parses to the
object with "x" under name, and \x7ba: 1, b: 2,\x7d parses to the
two-field object — though not every such input (see the
counterexample). -/
theorem parseJSONFromText_recovers_examples :
    parseJSONFromText (JsText.ofString "\x7bname: \"x\",\x7d") "object" =
      some (JVal.jobj [("name", JVal.jstr "x")]) ∧
    parseJSONFromText (JsText.ofString "\x7ba: 1, b: 2,\x7d") "object" =
      some (JVal.jobj [("a", jint 1), ("b", jint 2)]) :=
  ⟨rfl, rfl⟩

/-- C7: parseJSONFromText is total (it is a function into Option) and
returns none exactly when the input is not a non-empty string, or both
the strict parse of the selected candidate and the single post-repair
retry fail. -/
theorem parseJSONFromText_total_null_characterisation :
    ∀ (inp : JsText) (e : String),
      (∀ s, inp = JsText.ofString s →
        (parseJSONFromText inp e = none ↔
          s = "" ∨ (strictStage (candidateOf s e) = none ∧
            repairStage (candidateOf s e) = none))) ∧
      ((∀ s, inp ≠ JsText.ofString s) → parseJSONFromText inp e = none) := by
  intro inp e
  constructor
  · intro s hs
    subst hs
    simp only [parseJSONFromText, parseText]
    by_cases h0 : s = ""
    · simp [h0]
    · simp only [if_neg h0]
      cases hstrict : strictStage (candidateOf s e) with
      | some v => simp [hstrict, h0]
      | none =>
          cases hrep : repairStage (candidateOf s e) with
          | some v => simp [hrep, h0]
          | none => simp [hrep, h0]
  · intro hns
    cases inp with
    | ofString s => exact absurd rfl (hns s)
    | jsNull => rfl
    | jsUndefined => rfl
    | nonString => rfl

/-- C7 witness: the characterisation applied to the concrete string 42
(non-empty, strict parse succeeds) and to null input. -/
theorem parseJSONFromText_total_null_characterisation_witness :
    (parseJSONFromText (JsText.ofString "42") "object" = none ↔
      "42" = "" ∨ (strictStage (candidateOf "42" "object") = none ∧
        repairStage (candidateOf "42" "object") = none)) ∧
    parseJSONFromText JsText.jsNull "object" = none :=
  ⟨(parseJSONFromText_total_null_characterisation (JsText.ofString "42") "object").1
      "42" rfl,
   (parseJSONFromText_total_null_characterisation JsText.jsNull "object").2
      (fun _ h => JsText.noConfusion h)⟩

/-- C8: POST /api/quiz-questions with subject Biology, topic Cells and
numQuestions 3 in fallback mode returns (with no upstream call) the
200 array of exactly 3 question objects, each with exactly 4 options and
correctIndex 2. -/
theorem quizQuestions_biology_cells_fallback :
    ∀ up : Except String String,
      qqHandler true ⟨some "Biology", some "Cells", none, some 3⟩ up =
        ⟨false, HttpResult.sent 200 (qqLocalPayload "Biology" "Cells" "medium" 3)⟩ ∧
      ∃ qs : List JVal,
        qqLocalPayload "Biology" "Cells" "medium" 3 = JVal.jarr qs ∧
        qs.length = 3 ∧ qs.all questionShape = true := by
  intro up
  exact ⟨rfl, _, rfl, rfl, rfl⟩

/-- C2: in fallback mode (no valid API key, USE_LOCAL_AI true) every
content route returns HTTP 200 with the deterministic local payload
computed from the (defaulted) request parameters, never invokes the
upstream client, and the payload passes the route's own schema
validation. -/
theorem localMode_200_no_upstream :
    (∀ (b : KgBody) (up : Except String String),
      kgHandler true b up = ⟨false, HttpResult.sent 200
        (generateKnowledgeGraph (b.subject.getD "Mathematics")
          (b.numConcepts.getD 12)).toJVal⟩ ∧
      validKgResp (generateKnowledgeGraph (b.subject.getD "Mathematics")
        (b.numConcepts.getD 12)).toJVal = true) ∧
    (∀ (b : QqBody) (up : Except String String),
      qqHandler true b up = ⟨false, HttpResult.sent 200
        (qqLocalPayload (b.subject.getD "Mathematics") (b.topic.getD "basics")
          (b.difficulty.getD "medium") (b.numQuestions.getD 3))⟩ ∧
      validQqResp (qqLocalPayload (b.subject.getD "Mathematics")
        (b.topic.getD "basics") (b.difficulty.getD "medium")
        (b.numQuestions.getD 3)) = true) ∧
    (∀ (b : SpBody) (up : Except String String),
      spHandler true b up = ⟨false, HttpResult.sent 200
        (generateStudyPlanLocal (b.subject.getD "Mathematics")
          (b.duration.getD 4) (b.durationUnit.getD "weeks"))⟩ ∧
      validSpResp (generateStudyPlanLocal (b.subject.getD "Mathematics")
        (b.duration.getD 4) (b.durationUnit.getD "weeks")) = true) ∧
    (∀ (b : ClmBody) (up : Except String String),
      clmHandler true b up = ⟨false, HttpResult.sent 200
        (generateCompleteLearningModuleLocal (b.subject.getD "Mathematics")
          (b.topic.getD "basics"))⟩ ∧
      validClmResp (generateCompleteLearningModuleLocal
        (b.subject.getD "Mathematics") (b.topic.getD "basics")) = true) ∧
    (∀ (b : QaBody) (up : Except String String),
      qaHandler true b up = ⟨false, HttpResult.sent 200
        (generateQuizAssignmentsLocal (b.subject.getD "Mathematics")
          (b.topic.getD "basics") (b.numAssignments.getD 3))⟩ ∧
      validQaResp (generateQuizAssignmentsLocal (b.subject.getD "Mathematics")
        (b.topic.getD "basics") (b.numAssignments.getD 3)) = true) ∧
    (∀ (b : AqBody) (up : Except String String),
      aqHandler true b up = ⟨false, HttpResult.sent 200 (JVal.jobj
        [("importantTopics", aiImportantTopics (b.topic.getD "basics")),
         ("quiz", JVal.jarr ((generateQuizQuestionsLocal (b.subject.getD "General")
           (b.topic.getD "basics")
           (deriveAiDifficulty (b.userProfile.getD ⟨none, none⟩))
           (b.numQuestions.getD 5)).map QuizQ.toJVal))])⟩ ∧
      validAqResp (JVal.jobj
        [("importantTopics", aiImportantTopics (b.topic.getD "basics")),
         ("quiz", JVal.jarr ((generateQuizQuestionsLocal (b.subject.getD "General")
           (b.topic.getD "basics")
           (deriveAiDifficulty (b.userProfile.getD ⟨none, none⟩))
           (b.numQuestions.getD 5)).map QuizQ.toJVal))]) = true) :=
  ⟨fun _ _ => ⟨rfl, rfl⟩, fun _ _ => ⟨rfl, rfl⟩, fun _ _ => ⟨rfl, rfl⟩,
   fun _ _ => ⟨rfl, rfl⟩, fun _ _ => ⟨rfl, rfl⟩, fun _ _ => ⟨rfl, rfl⟩⟩

/-- C9: missing request-body fields are silently replaced by the
documented per-route destructuring defaults and the request is processed
exactly as if those defaults had been supplied: in fallback mode the
response is identical (and is a 200 — no validation rejection for any
body, however incomplete), and in upstream mode the response status never
depends on whether the fields were missing or explicitly the defaults. -/
theorem missing_fields_defaulted_never_rejected :
    (∀ (b : KgBody) (up : Except String String),
      kgHandler true b up = kgHandler true (fillKg b) up ∧
      (kgHandler true b up).result.statusOf = some 200 ∧
      (kgHandler false b up).result.statusOf =
        (kgHandler false (fillKg b) up).result.statusOf) ∧
    (∀ (b : QqBody) (up : Except String String),
      qqHandler true b up = qqHandler true (fillQq b) up ∧
      (qqHandler true b up).result.statusOf = some 200 ∧
      (qqHandler false b up).result.statusOf =
        (qqHandler false (fillQq b) up).result.statusOf) ∧
    (∀ (b : SpBody) (up : Except String String),
      spHandler true b up = spHandler true (fillSp b) up ∧
      (spHandler true b up).result.statusOf = some 200 ∧
      (spHandler false b up).result.statusOf =
        (spHandler false (fillSp b) up).result.statusOf) ∧
    (∀ (b : ClmBody) (up : Except String String),
      clmHandler true b up = clmHandler true (fillClm b) up ∧
      (clmHandler true b up).result.statusOf = some 200 ∧
      (clmHandler false b up).result.statusOf =
        (clmHandler false (fillClm b) up).result.statusOf) ∧
    (∀ (b : QaBody) (up : Except String String),
      qaHandler true b up = qaHandler true (fillQa b) up ∧
      (qaHandler true b up).result.statusOf = some 200 ∧
      (qaHandler false b up).result.statusOf =
        (qaHandler false (fillQa b) up).result.statusOf) ∧
    (∀ (b : AqBody) (up : Except String String),
      aqHandler true b up = aqHandler true (fillAq b) up ∧
      (aqHandler true b up).result.statusOf = some 200 ∧
      (aqHandler false b up).result.statusOf =
        (aqHandler false (fillAq b) up).result.statusOf) := by
  refine ⟨?_, ?_, ?_, ?_, ?_, ?_⟩
  · intro b up
    refine ⟨by simp [kgHandler, fillKg], by simp [kgHandler, HttpResult.statusOf], ?_⟩
    cases up with
    | error e => simp [kgHandler, kgCatch, HttpResult.statusOf]
    | ok resp =>
        cases hp : parseText resp "object" with
        | none => simp [kgHandler, hp, kgCatch, HttpResult.statusOf]
        | some v =>
            by_cases hv : validKgResp v = true
            · simp [kgHandler, hp, hv, HttpResult.statusOf]
            · simp [kgHandler, hp, hv, kgCatch, HttpResult.statusOf]
  · intro b up
    refine ⟨by simp [qqHandler, fillQq], by simp [qqHandler, HttpResult.statusOf], ?_⟩
    cases up with
    | error e => simp [qqHandler, qqCatch, HttpResult.statusOf]
    | ok resp =>
        cases hp : parseText resp "array" with
        | none => simp [qqHandler, hp, qqCatch, HttpResult.statusOf]
        | some v =>
            by_cases hv : validQqResp v = true
            · simp [qqHandler, hp, hv, HttpResult.statusOf]
            · simp [qqHandler, hp, hv, qqCatch, HttpResult.statusOf]
  · intro b up
    refine ⟨by simp [spHandler, fillSp], by simp [spHandler, HttpResult.statusOf], ?_⟩
    cases up with
    | error e => simp [spHandler, HttpResult.statusOf]
    | ok resp =>
        cases hp : parseText resp "object" with
        | none => simp [spHandler, hp, HttpResult.statusOf]
        | some v =>
            by_cases hv : validSpResp v = true
            · simp [spHandler, hp, hv, HttpResult.statusOf]
            · simp [spHandler, hp, hv, HttpResult.statusOf]
  · intro b up
    refine ⟨by simp [clmHandler, fillClm], by simp [clmHandler, HttpResult.statusOf], ?_⟩
    cases up with
    | error e => simp [clmHandler, HttpResult.statusOf]
    | ok resp =>
        cases hp : parseText resp "object" with
        | none => simp [clmHandler, hp, HttpResult.statusOf]
        | some v =>
            by_cases hv : validClmResp v = true
            · simp [clmHandler, hp, hv, HttpResult.statusOf]
            · simp [clmHandler, hp, hv, HttpResult.statusOf]
  · intro b up
    refine ⟨by simp [qaHandler, fillQa], by simp [qaHandler, HttpResult.statusOf], ?_⟩
    cases up with
    | error e => simp [qaHandler, HttpResult.statusOf]
    | ok resp =>
        cases hp : parseText resp "object" with
        | none => simp [qaHandler, hp, HttpResult.statusOf]
        | some v =>
            by_cases hv : validQaResp v = true
            · simp [qaHandler, hp, hv, HttpResult.statusOf]
            · simp [qaHandler, hp, hv, HttpResult.statusOf]
  · intro b up
    refine ⟨by simp [aqHandler, fillAq], by simp [aqHandler, HttpResult.statusOf], ?_⟩
    cases up with
    | error e => rfl
    | ok resp =>
        cases hp : parseText resp "object" with
        | none => simp [aqHandler, hp, HttpResult.statusOf]
        | some v =>
            by_cases hv : validAqResp v = true
            · simp [aqHandler, hp, hv, HttpResult.statusOf]
            · simp [aqHandler, hp, hv, HttpResult.statusOf]

/-- Every 400/500 body built by the five well-formed routes has the shape
(error, fallback) object, which satisfies errorCarriesFallback. -/
theorem errorFallback_body (flag : Bool) (st : Nat) (h : st = 400 ∨ st = 500)
    (ev fb : JVal) :
    errorCarriesFallback ⟨flag, HttpResult.sent st
      (JVal.jobj [("error", ev), ("fallback", fb)])⟩ :=
  Or.inr ⟨h, rfl, rfl⟩

/-- C1: for five of the six content routes every outcome, in any mode and
for any request body and upstream result, is either a 200 or a 400/500
JSON body carrying both an error message and a locally generated
fallback.  The sixth route, POST /api/ai-quiz, violates the claim: when
its primary path throws (here: the upstream call fails), its catch block
references the try-scoped let binding difficulty, so evaluating the
res.status(500).json argument throws a ReferenceError and the
error-with-fallback response is never sent. -/
theorem contentRoutes_error_responses_carry_fallback :
    (∀ (m : Bool) (b : KgBody) (up : Except String String),
      errorCarriesFallback (kgHandler m b up)) ∧
    (∀ (m : Bool) (b : QqBody) (up : Except String String),
      errorCarriesFallback (qqHandler m b up)) ∧
    (∀ (m : Bool) (b : SpBody) (up : Except String String),
      errorCarriesFallback (spHandler m b up)) ∧
    (∀ (m : Bool) (b : ClmBody) (up : Except String String),
      errorCarriesFallback (clmHandler m b up)) ∧
    (∀ (m : Bool) (b : QaBody) (up : Except String String),
      errorCarriesFallback (qaHandler m b up)) ∧
    aqHandler false ⟨none, none, none, none⟩
        (Except.error "Google API 500: upstream failure") =
      ⟨true, HttpResult.crashed "ReferenceError: difficulty is not defined"⟩ := by
  refine ⟨?_, ?_, ?_, ?_, ?_, rfl⟩
  · intro m b up
    cases m with
    | true => exact Or.inl rfl
    | false =>
        cases up with
        | error e => exact errorFallback_body _ 500 (Or.inr rfl) _ _
        | ok resp =>
            cases hp : parseText resp "object" with
            | none =>
                simp only [kgHandler, hp, Bool.false_eq_true, if_false]
                exact errorFallback_body _ 500 (Or.inr rfl) _ _
            | some v =>
                by_cases hv : validKgResp v = true
                · simp only [kgHandler, hp, Bool.false_eq_true, if_false, if_pos hv]
                  exact Or.inl rfl
                · simp only [kgHandler, hp, Bool.false_eq_true, if_false, if_neg hv]
                  exact errorFallback_body _ 500 (Or.inr rfl) _ _
  · intro m b up
    cases m with
    | true => exact Or.inl rfl
    | false =>
        cases up with
        | error e => exact errorFallback_body _ 500 (Or.inr rfl) _ _
        | ok resp =>
            cases hp : parseText resp "array" with
            | none =>
                simp only [qqHandler, hp, Bool.false_eq_true, if_false]
                exact errorFallback_body _ 500 (Or.inr rfl) _ _
            | some v =>
                by_cases hv : validQqResp v = true
                · simp only [qqHandler, hp, Bool.false_eq_true, if_false, if_pos hv]
                  exact Or.inl rfl
                · simp only [qqHandler, hp, Bool.false_eq_true, if_false, if_neg hv]
                  exact errorFallback_body _ 500 (Or.inr rfl) _ _
  · intro m b up
    cases m with
    | true => exact Or.inl rfl
    | false =>
        cases up with
        | error e => exact errorFallback_body _ 500 (Or.inr rfl) _ _
        | ok resp =>
            cases hp : parseText resp "object" with
            | none =>
                simp only [spHandler, hp, Bool.false_eq_true, if_false]
                exact errorFallback_body _ 400 (Or.inl rfl) _ _
            | some v =>
                by_cases hv : validSpResp v = true
                · simp only [spHandler, hp, Bool.false_eq_true, if_false, if_pos hv]
                  exact Or.inl rfl
                · simp only [spHandler, hp, Bool.false_eq_true, if_false, if_neg hv]
                  exact errorFallback_body _ 400 (Or.inl rfl) _ _
  · intro m b up
    cases m with
    | true => exact Or.inl rfl
    | false =>
        cases up with
        | error e => exact errorFallback_body _ 500 (Or.inr rfl) _ _
        | ok resp =>
            cases hp : parseText resp "object" with
            | none =>
                simp only [clmHandler, hp, Bool.false_eq_true, if_false]
                exact errorFallback_body _ 400 (Or.inl rfl) _ _
            | some v =>
                by_cases hv : validClmResp v = true
                · simp only [clmHandler, hp, Bool.false_eq_true, if_false, if_pos hv]
                  exact Or.inl rfl
                · simp only [clmHandler, hp, Bool.false_eq_true, if_false, if_neg hv]
                  exact errorFallback_body _ 400 (Or.inl rfl) _ _
  · intro m b up
    cases m with
    | true => exact Or.inl rfl
    | false =>
        cases up with
        | error e => exact errorFallback_body _ 500 (Or.inr rfl) _ _
        | ok resp =>
            cases hp : parseText resp "object" with
            | none =>
                simp only [qaHandler, hp, Bool.false_eq_true, if_false]
                exact errorFallback_body _ 400 (Or.inl rfl) _ _
            | some v =>
                by_cases hv : validQaResp v = true
                · simp only [qaHandler, hp, Bool.false_eq_true, if_false, if_pos hv]
                  exact Or.inl rfl
                · simp only [qaHandler, hp, Bool.false_eq_true, if_false, if_neg hv]
                  exact errorFallback_body _ 400 (Or.inl rfl) _ _

/- Decimal rendering is injective (needed to know the generated concept
names are pairwise distinct). -/

theorem ofDigsRev_natDigsRev : ∀ f n : Nat, n ≤ f → ofDigsRev (natDigsRev f n) = n := by
  intro f
  induction f with
  | zero =>
      intro n hn
      have : n = 0 := Nat.le_zero.mp hn
      subst this
      rfl
  | succ f ih =>
      intro n hn
      by_cases h0 : n = 0
      · subst h0; rfl
      · have hlt : n / 10 < n := Nat.div_lt_self (Nat.pos_of_ne_zero h0) (by norm_num)
        have hdiv : n / 10 ≤ f := by omega
        have hrec := ih (n / 10) hdiv
        simp only [natDigsRev, if_neg h0, ofDigsRev, List.foldr_cons] at *
        omega

theorem natDigsRev_lt_ten : ∀ f n : Nat, ∀ d ∈ natDigsRev f n, d < 10 := by
  intro f
  induction f with
  | zero => intro n d hd; simp [natDigsRev] at hd
  | succ f ih =>
      intro n d hd
      by_cases h0 : n = 0
      · simp [natDigsRev, h0] at hd
      · simp only [natDigsRev, if_neg h0, List.mem_cons] at hd
        rcases hd with h | h
        · subst h; exact Nat.mod_lt _ (by norm_num)
        · exact ih _ _ h

theorem digitChar_inj_lt : ∀ a b : Nat, a < 10 → b < 10 →
    Nat.digitChar a = Nat.digitChar b → a = b := by
  intro a b ha hb
  interval_cases a <;> interval_cases b <;> decide

theorem map_digitChar_inj : ∀ l1 l2 : List Nat, (∀ d ∈ l1, d < 10) →
    (∀ d ∈ l2, d < 10) → l1.map Nat.digitChar = l2.map Nat.digitChar → l1 = l2 := by
  intro l1
  induction l1 with
  | nil => intro l2 _ _ h; cases l2 <;> simp_all
  | cons a as ih =>
      intro l2 h1 h2 h
      cases l2 with
      | nil => simp at h
      | cons b bs =>
          simp only [List.map_cons, List.cons.injEq] at h
          have ha : a = b := digitChar_inj_lt a b (h1 a (by simp)) (h2 b (by simp)) h.1
          have hs : as = bs := ih bs (fun d hd => h1 d (by simp [hd]))
            (fun d hd => h2 d (by simp [hd])) h.2
          rw [ha, hs]

theorem natStr_injective : ∀ m n : Nat, natStr m = natStr n → m = n := by
  have main : ∀ m n : Nat, m ≠ 0 → n ≠ 0 → natStr m = natStr n → m = n := by
    intro m n hm hn h
    unfold natStr at h
    rw [if_neg hm, if_neg hn] at h
    have hd := congrArg String.data h
    have hrev := map_digitChar_inj _ _
      (fun d hd => natDigsRev_lt_ten _ _ d (List.mem_reverse.mp hd))
      (fun d hd => natDigsRev_lt_ten _ _ d (List.mem_reverse.mp hd)) hd
    have hdig : natDigsRev (m + 1) m = natDigsRev (n + 1) n :=
      List.reverse_injective hrev
    calc m = ofDigsRev (natDigsRev (m + 1) m) :=
          (ofDigsRev_natDigsRev _ _ (by omega)).symm
      _ = ofDigsRev (natDigsRev (n + 1) n) := by rw [hdig]
      _ = n := ofDigsRev_natDigsRev _ _ (by omega)
  have zero_case : ∀ n : Nat, n ≠ 0 → natStr 0 ≠ natStr n := by
    intro n hn h
    unfold natStr at h
    rw [if_pos rfl, if_neg hn] at h
    have hd := congrArg String.data h
    have h0 : ([0] : List Nat).map Nat.digitChar =
        (natDigsRev (n + 1) n).reverse.map Nat.digitChar := hd
    have hrev := map_digitChar_inj _ _ (by decide)
      (fun d hd => natDigsRev_lt_ten _ _ d (List.mem_reverse.mp hd)) h0
    have hzero : natDigsRev (n + 1) n = [0] := by
      have := congrArg List.reverse hrev
      simpa using this.symm
    have hval := ofDigsRev_natDigsRev (n + 1) n (by omega)
    rw [hzero] at hval
    simp [ofDigsRev] at hval
    exact hn hval.symm
  intro m n h
  by_cases hm : m = 0 <;> by_cases hn : n = 0
  · omega
  · exact absurd h (hm ▸ zero_case n hn)
  · exact absurd h.symm (hn ▸ zero_case m hm)
  · exact main m n hm hn h

theorem conceptName_inj (subject : String) (i j : Nat)
    (h : conceptName subject i = conceptName subject j) : i = j := by
  unfold conceptName at h
  have hd := congrArg String.data h
  simp only [String.data_append, List.append_assoc] at hd
  have h2 : natStr (i + 1) = natStr (j + 1) :=
    String.ext (List.append_cancel_left (List.append_cancel_left hd))
  have := natStr_injective _ _ h2
  omega

/-- A successful lookup in a mapped association list comes from some
element of the generating list. -/
theorem lookup_map_eq_some {α β : Type} (li : List α) (f : α → String × β)
    (key : String) (l : β) (h : (li.map f).lookup key = some l) :
    ∃ i ∈ li, key = (f i).1 ∧ l = (f i).2 := by
  induction li with
  | nil => simp [List.lookup] at h
  | cons a as ih =>
      rcases hfa : f a with ⟨k, v⟩
      rw [List.map_cons, hfa] at h
      by_cases hk : key = k
      · subst hk
        simp [List.lookup] at h
        exact ⟨a, by simp, by rw [hfa], by rw [hfa, ← h]⟩
      · have hbeq : (key == k) = false := beq_eq_false_iff_ne.mpr hk
        rw [List.lookup, hbeq] at h
        obtain ⟨i, hi, h1, h2⟩ := ih h
        exact ⟨i, by simp [hi], h1, h2⟩

/-- Looking up the i-th generated concept name in the dependency list
built over range' s len finds exactly its chain entry (the names are
pairwise distinct). -/
theorem lookup_conceptName_range' (subject : String) :
    ∀ (len s i : Nat), s ≤ i → i < s + len →
    ((List.range' s len).map (fun j =>
      (conceptName subject j, [conceptName subject (j - 1)]))).lookup
        (conceptName subject i) = some [conceptName subject (i - 1)] := by
  intro len
  induction len with
  | zero => intro s i h1 h2; omega
  | succ len ih =>
      intro s i h1 h2
      rw [List.range'_succ, List.map_cons]
      by_cases he : i = s
      · subst he
        simp [List.lookup]
      · have hne : (conceptName subject i == conceptName subject s) = false :=
          beq_eq_false_iff_ne.mpr (fun hEq => he (conceptName_inj subject i s hEq))
        rw [List.lookup, hne]
        exact ih (s + 1) i (by omega) (by omega)

/-- Every prerequisite edge of the generated graph links a concept name
of index i to the name of index i+1 (indices within range). -/
theorem depRel_generateKG (subject : String) (numConcepts : Int) (a b : String)
    (h : depRel (generateKnowledgeGraph subject numConcepts) a b) :
    ∃ i : Nat, 1 ≤ i ∧ i < numConcepts.toNat ∧
      a = conceptName subject (i - 1) ∧ b = conceptName subject i := by
  obtain ⟨l, hlook, hmem⟩ := h
  simp only [generateKnowledgeGraph] at hlook
  obtain ⟨i, hi, hkey, hl⟩ := lookup_map_eq_some _ _ _ _ hlook
  rw [List.mem_range'_1] at hi
  refine ⟨i, hi.1, by omega, ?_, hkey⟩
  rw [hl] at hmem
  simpa using hmem

/-- C10: for every subject and integer numConcepts ≥ 1 the local
knowledge-graph generator returns exactly numConcepts concepts with
levels in 1..6 and difficulties in 1..5; the dependencies map is exactly
the chain assigning to each concept after the first its immediate
predecessor as sole prerequisite (characterised both as a list equality
and through lookup), every edge of the derived prerequisite relation
goes from a lower-indexed name to a higher-indexed one, and the relation
has no cycles. -/
theorem generateKnowledgeGraph_chain_invariants (subject : String) (n : Int)
    (hn : 1 ≤ n) :
    ((generateKnowledgeGraph subject n).concepts.length : Int) = n ∧
    (∀ c ∈ (generateKnowledgeGraph subject n).concepts,
      1 ≤ c.level ∧ c.level ≤ 6 ∧ 1 ≤ c.difficulty ∧ c.difficulty ≤ 5) ∧
    ((generateKnowledgeGraph subject n).dependencies =
      (List.range' 1 (n.toNat - 1)).map (fun i =>
        (conceptName subject i, [conceptName subject (i - 1)]))) ∧
    (∀ i : Nat, 1 ≤ i → i < n.toNat →
      (generateKnowledgeGraph subject n).dependencies.lookup
        (conceptName subject i) = some [conceptName subject (i - 1)]) ∧
    (∀ a b, depRel (generateKnowledgeGraph subject n) a b →
      ∃ i j : Nat, i < j ∧ j < n.toNat ∧ a = conceptName subject i ∧
        b = conceptName subject j) ∧
    (∀ c, ¬ Relation.TransGen (depRel (generateKnowledgeGraph subject n)) c c) := by
  refine ⟨?_, ?_, rfl, ?_, ?_, ?_⟩
  · simp only [generateKnowledgeGraph, List.length_map, List.length_range]
    omega
  · intro c hc
    simp only [generateKnowledgeGraph, List.mem_map, List.mem_range] at hc
    obtain ⟨i, _, rfl⟩ := hc
    refine ⟨?_, ?_, ?_, ?_⟩
    · exact le_min (by norm_num) (le_max_left 1 _)
    · exact min_le_left _ _
    · refine le_min (by norm_num) ?_
      have := Int.emod_nonneg (i : Int) (by norm_num : (5 : Int) ≠ 0)
      omega
    · exact min_le_left _ _
  · intro i h1 h2
    have hto : 1 ≤ n.toNat := by omega
    exact lookup_conceptName_range' subject (n.toNat - 1) 1 i h1 (by omega)
  · intro a b h
    obtain ⟨i, h1, h2, ha, hb⟩ := depRel_generateKG subject n a b h
    exact ⟨i - 1, i, by omega, h2, ha, hb⟩
  · intro c hc
    have key : ∀ a b, Relation.TransGen
        (depRel (generateKnowledgeGraph subject n)) a b →
        ∃ i j : Nat, i < j ∧ a = conceptName subject i ∧ b = conceptName subject j := by
      intro a b h
      induction h with
      | single h =>
          obtain ⟨i, h1, _, ha, hb⟩ := depRel_generateKG subject n _ _ h
          exact ⟨i - 1, i, by omega, ha, hb⟩
      | tail hab hbc ih =>
          obtain ⟨i, j, hij, ha, hb⟩ := ih
          obtain ⟨k, hk1, _, hbk, hck⟩ := depRel_generateKG subject n _ _ hbc
          have hjk : j = k - 1 := conceptName_inj subject j (k - 1) (by rw [← hb, hbk])
          exact ⟨i, k, by omega, ha, hck⟩
    obtain ⟨i, j, hij, hci, hcj⟩ := key c c hc
    have : i = j := conceptName_inj subject i j (by rw [← hci, hcj])
    omega

/-- C10 witness at subject Math, numConcepts 3. -/
theorem generateKnowledgeGraph_chain_invariants_witness :
    ((generateKnowledgeGraph "Math" 3).concepts.length : Int) = 3 ∧
    (generateKnowledgeGraph "Math" 3).dependencies =
      (List.range' 1 2).map (fun i =>
        (conceptName "Math" i, [conceptName "Math" (i - 1)])) :=
  ⟨(generateKnowledgeGraph_chain_invariants "Math" 3 (by norm_num)).1,
   (generateKnowledgeGraph_chain_invariants "Math" 3 (by norm_num)).2.2.1⟩

/- ### Fence-wrapping invariance of the extractor (C6 machinery) -/

theorem dropCI_length_le : ∀ (p s : List Char) (r : List Char),
    dropCI p s = some r → r.length ≤ s.length := by
  intro p
  induction p with
  | nil => intro s r h; cases h; omega
  | cons a as ih =>
      intro s r h
      cases s with
      | nil => simp [dropCI] at h
      | cons c cs =>
          simp only [dropCI] at h
          by_cases hc : c.toLower = a
          · rw [if_pos hc] at h
            have := ih cs r h
            simp
            omega
          · rw [if_neg hc] at h
            cases h

theorem langRest_length_le (s : List Char) : (langRest s).length ≤ s.length := by
  unfold langRest
  cases h1 : dropCI langJson s with
  | some r => exact dropCI_length_le _ _ _ h1
  | none =>
      cases h2 : dropCI langJs s with
      | some r => exact dropCI_length_le _ _ _ h2
      | none =>
          cases h3 : dropCI langJavascript s with
          | some r => exact dropCI_length_le _ _ _ h3
          | none => simp

theorem dropNl_length_le (s : List Char) : (dropNl s).length ≤ s.length := by
  cases s with
  | nil => simp [dropNl]
  | cons c r =>
      simp only [dropNl]
      by_cases hc : c = '\n'
      · rw [if_pos hc]; simp
      · rw [if_neg hc]

theorem fenceTail_length_le (s : List Char) : (fenceTail s).length ≤ s.length :=
  le_trans (dropNl_length_le _) (langRest_length_le _)

/-- The fuel of the fence scanner is irrelevant once it dominates the
input length. -/
theorem goStripA_congr : ∀ (f g : Nat) (s : List Char),
    s.length ≤ f → s.length ≤ g → goStripA f s = goStripA g s := by
  intro f
  induction f with
  | zero =>
      intro g s hf hg
      have : s = [] := List.eq_nil_of_length_eq_zero (by omega)
      subst this
      cases g <;> rfl
  | succ f ih =>
      intro g s hf hg
      cases s with
      | nil => cases g <;> rfl
      | cons c cs =>
          cases g with
          | zero => simp at hg
          | succ g =>
              simp only [goStripA]
              by_cases hfe : isFenceStart (c :: cs) = true
              · rw [if_pos hfe, if_pos hfe]
                have hlen : (fenceTail (cs.drop 2)).length ≤ (cs.drop 2).length :=
                  fenceTail_length_le _
                have hdrop : (cs.drop 2).length = cs.length - 2 := by simp
                have hcs : cs.length + 1 ≤ f + 1 := by simpa using hf
                have hcs2 : cs.length + 1 ≤ g + 1 := by simpa using hg
                exact ih g _ (by omega) (by omega)
              · rw [if_neg hfe, if_neg hfe]
                have hcs : cs.length + 1 ≤ f + 1 := by simpa using hf
                have hcs2 : cs.length + 1 ≤ g + 1 := by simpa using hg
                rw [ih g cs (by omega) (by omega)]

/-- One scanner step over a fence start. -/
theorem stripFenceLang_fence_step (rest : List Char) :
    stripFenceLang (btChar :: btChar :: btChar :: rest) =
      stripFenceLang (fenceTail rest) := by
  have h1 : stripFenceLang (btChar :: btChar :: btChar :: rest) =
      goStripA (rest.length + 2) (fenceTail rest) := rfl
  rw [h1]
  exact goStripA_congr _ _ _ (by have := fenceTail_length_le rest; omega)
    (le_refl _)

/-- One scanner step over a non-fence head. -/
theorem stripFenceLang_cons_step (c : Char) (cs : List Char)
    (h : isFenceStart (c :: cs) = false) :
    stripFenceLang (c :: cs) = c :: stripFenceLang cs := by
  show goStripA (cs.length + 1) (c :: cs) = _
  simp only [goStripA, h, Bool.false_eq_true, if_false]
  rfl

/-- Stripping consumes a leading json-tagged fence entirely. -/
theorem stripFenceLang_json_prefix (t : List Char) :
    stripFenceLang (fenceJsonNl ++ t) = stripFenceLang t := by
  have h1 : stripFenceLang (fenceJsonNl ++ t) = goStripA (t.length + 7) t := rfl
  rw [h1]
  exact goStripA_congr _ _ _ (by omega) (le_refl _)

/-- Stripping consumes a leading plain fence entirely. -/
theorem stripFenceLang_plain_prefix (t : List Char) :
    stripFenceLang (fencePlainNl ++ t) = stripFenceLang t := by
  have h1 : stripFenceLang (fencePlainNl ++ t) = goStripA (t.length + 3) t := rfl
  rw [h1]
  exact goStripA_congr _ _ _ (by omega) (le_refl _)

/-- Appending the closing fence does not change whether the text starts
with three backticks (the closing fence starts with a newline). -/
theorem isFenceStart_append_nlFence (s : List Char) :
    isFenceStart (s ++ nlFence) = isFenceStart s := by
  have hnl : ('\n' = btChar) = False := by simp [btChar]
  rcases s with _ | ⟨a, _ | ⟨b, _ | ⟨c, rest⟩⟩⟩
  · decide
  · simp [isFenceStart, nlFence, hnl]
  · simp [isFenceStart, nlFence, hnl]
  · rfl

/-- A case-insensitive word made of non-newline characters extends over
an appended newline-led suffix exactly as over the original string. -/
theorem dropCI_append_nl : ∀ (p rest z : List Char),
    (∀ c ∈ p, c ≠ '\n') →
    dropCI p (rest ++ '\n' :: z) = (dropCI p rest).map (fun r => r ++ '\n' :: z) := by
  intro p
  induction p with
  | nil => intro rest z _; rfl
  | cons a as ih =>
      intro rest z hp
      cases rest with
      | nil =>
          simp only [List.nil_append, dropCI]
          have hnlt : ('\n').toLower = '\n' := by decide
          have ha : ¬(('\n').toLower = a) := by
            rw [hnlt]
            intro hEq
            exact hp a (by simp) hEq.symm
          rw [if_neg ha]
          rfl
      | cons c cs =>
          simp only [List.cons_append, dropCI]
          by_cases hc : c.toLower = a
          · rw [if_pos hc, if_pos hc]
            exact ih cs z (fun d hd => hp d (by simp [hd]))
          · rw [if_neg hc, if_neg hc]
            rfl

theorem langRest_append_nl (rest z : List Char) :
    langRest (rest ++ '\n' :: z) = langRest rest ++ '\n' :: z := by
  unfold langRest
  rw [dropCI_append_nl langJson _ _ (by decide),
    dropCI_append_nl langJs _ _ (by decide),
    dropCI_append_nl langJavascript _ _ (by decide)]
  cases dropCI langJson rest with
  | some r => rfl
  | none =>
      cases dropCI langJs rest with
      | some r => rfl
      | none =>
          cases dropCI langJavascript rest with
          | some r => rfl
          | none => rfl

/-- How the post-backticks part of a fence match interacts with the
appended closing fence: normally the suffix just rides along; when the
language word ends exactly at the end of the text, the optional newline
of the match absorbs the suffix newline and three bare backticks
remain. -/
theorem fenceTail_append_nlFence (rest : List Char) :
    fenceTail (rest ++ nlFence) = fenceTail rest ++ nlFence ∨
    (fenceTail (rest ++ nlFence) = [btChar, btChar, btChar] ∧ fenceTail rest = []) := by
  unfold fenceTail
  have hnl : (nlFence : List Char) = '\n' :: [btChar, btChar, btChar] := rfl
  rw [hnl, langRest_append_nl]
  cases hlr : langRest rest with
  | nil => exact Or.inr ⟨rfl, rfl⟩
  | cons x xs =>
      left
      show dropNl (x :: (xs ++ '\n' :: [btChar, btChar, btChar])) =
        dropNl (x :: xs) ++ '\n' :: [btChar, btChar, btChar]
      simp only [dropNl]
      by_cases hx : x = '\n'
      · rw [if_pos hx, if_pos hx]
      · rw [if_neg hx, if_neg hx]
        rfl

/-- Core suffix lemma: stripping the first fence regex over text followed
by a newline and a closing fence yields the stripped text followed by the
newline, or — when the newline is absorbed by a fence match ending at the
boundary — exactly the stripped text. -/
theorem stripFenceLang_append_nlFence (s : List Char) :
    stripFenceLang (s ++ nlFence) = stripFenceLang s ++ ['\n'] ∨
    stripFenceLang (s ++ nlFence) = stripFenceLang s := by
  suffices h : ∀ (N : Nat) (s : List Char), s.length ≤ N →
      stripFenceLang (s ++ nlFence) = stripFenceLang s ++ ['\n'] ∨
      stripFenceLang (s ++ nlFence) = stripFenceLang s from
    h s.length s (le_refl _)
  intro N
  induction N with
  | zero =>
      intro s hs
      have : s = [] := List.eq_nil_of_length_eq_zero (by omega)
      subst this
      exact Or.inl rfl
  | succ N ih =>
      intro s hs
      cases s with
      | nil => exact Or.inl rfl
      | cons c cs =>
          by_cases hf : isFenceStart (c :: cs) = true
          · rcases cs with _ | ⟨c2, _ | ⟨c3, rest⟩⟩
            · simp [isFenceStart] at hf
            · simp [isFenceStart] at hf
            · simp only [isFenceStart, Bool.and_eq_true, decide_eq_true_eq] at hf
              obtain ⟨⟨rfl, rfl⟩, rfl⟩ := hf
              have hstep : (btChar :: btChar :: btChar :: rest) ++ nlFence =
                  btChar :: btChar :: btChar :: (rest ++ nlFence) := rfl
              rw [hstep, stripFenceLang_fence_step, stripFenceLang_fence_step]
              rcases fenceTail_append_nlFence rest with hft | ⟨hft, hft0⟩
              · rw [hft]
                have hlen := fenceTail_length_le rest
                have hs2 : rest.length + 3 ≤ N + 1 := by simpa using hs
                exact ih (fenceTail rest) (by omega)
              · rw [hft, hft0]
                exact Or.inr rfl
          · have hf1 : isFenceStart (c :: cs) = false := by simpa using hf
            have hf2 : isFenceStart (c :: (cs ++ nlFence)) = false := by
              have := isFenceStart_append_nlFence (c :: cs)
              simpa [hf1] using this
            have hcons : (c :: cs) ++ nlFence = c :: (cs ++ nlFence) := rfl
            rw [hcons, stripFenceLang_cons_step _ _ hf2,
              stripFenceLang_cons_step _ _ hf1]
            have hs2 : cs.length + 1 ≤ N + 1 := by simpa using hs
            rcases ih cs (by omega) with h | h
            · left
              rw [h]
              rfl
            · right
              rw [h]

/-- The second (plain ```) replacement commutes with a trailing newline:
no three-backtick run can cross into it. -/
theorem stripFencePlain_append_nl (x : List Char) :
    stripFencePlain (x ++ ['\n']) = stripFencePlain x ++ ['\n'] := by
  suffices h : ∀ (N : Nat) (x : List Char), x.length ≤ N →
      stripFencePlain (x ++ ['\n']) = stripFencePlain x ++ ['\n'] from
    h x.length x (le_refl _)
  intro N
  induction N with
  | zero =>
      intro x hx
      have : x = [] := List.eq_nil_of_length_eq_zero (by omega)
      subst this
      rfl
  | succ N ih =>
      intro x hx
      rcases x with _ | ⟨a, _ | ⟨b, _ | ⟨c, rest⟩⟩⟩
      · rfl
      · rfl
      · have hcond : ¬(a = btChar ∧ b = btChar ∧ '\n' = btChar) :=
          fun h => absurd h.2.2 (by decide)
        show stripFencePlain (a :: b :: '\n' :: []) = _
        simp only [stripFencePlain, if_neg hcond]
        rfl
      · show stripFencePlain (a :: b :: c :: (rest ++ ['\n'])) =
          stripFencePlain (a :: b :: c :: rest) ++ ['\n']
        by_cases habc : a = btChar ∧ b = btChar ∧ c = btChar
        · simp only [stripFencePlain, if_pos habc]
          have hlen : rest.length ≤ N := by simp at hx; omega
          exact ih rest hlen
        · simp only [stripFencePlain, if_neg habc]
          have hlen : (b :: c :: rest).length ≤ N := by simp at hx ⊢; omega
          have := ih (b :: c :: rest) hlen
          simp only [List.cons_append] at this ⊢
          rw [this]

theorem trimRightWs_append_nl (z : List Char) :
    trimRightWs (z ++ ['\n']) = trimRightWs z := by
  unfold trimRightWs
  rw [List.reverse_append]
  have h1 : (['\n'] : List Char).reverse = ['\n'] := rfl
  rw [h1]
  have h2 : isTrimWs '\n' = true := by decide
  simp [List.dropWhile_cons, h2]

theorem trimWs_append_nl (y : List Char) : trimWs (y ++ ['\n']) = trimWs y := by
  unfold trimWs trimLeftWs
  rw [List.dropWhile_append]
  by_cases he : (y.dropWhile isTrimWs).isEmpty
  · rw [if_pos he]
    have h1 : List.dropWhile isTrimWs ['\n'] = [] := by decide
    rw [h1]
    have h2 : y.dropWhile isTrimWs = [] := by simpa [List.isEmpty_iff] using he
    rw [h2]
  · rw [if_neg he]
    exact trimRightWs_append_nl _

/-- Wrapping in a json-tagged fence is invisible to the normalisation
pipeline (fence stripping plus trim). -/
theorem normalizeText_wrapJson (t : List Char) :
    normalizeText (fenceJsonNl ++ t ++ nlFence) = normalizeText t := by
  unfold normalizeText
  rw [List.append_assoc, stripFenceLang_json_prefix]
  rcases stripFenceLang_append_nlFence t with h | h
  · rw [h, stripFencePlain_append_nl, trimWs_append_nl]
  · rw [h]

/-- Wrapping in a plain fence is invisible to the normalisation
pipeline. -/
theorem normalizeText_wrapPlain (t : List Char) :
    normalizeText (fencePlainNl ++ t ++ nlFence) = normalizeText t := by
  unfold normalizeText
  rw [List.append_assoc, stripFenceLang_plain_prefix]
  rcases stripFenceLang_append_nlFence t with h | h
  · rw [h, stripFencePlain_append_nl, trimWs_append_nl]
  · rw [h]

theorem selectCandidate_nil (e : String) : selectCandidate [] e = [] := by
  unfold selectCandidate
  simp [bracketSpan]

/-- The two wrappers agree with string-level concatenation of the fence
markers. -/
theorem wrapJson_eq_append (t : String) :
    wrapJson t = "```json\n" ++ t ++ "\n```" := by
  apply String.ext
  show fenceJsonNl ++ t.data ++ nlFence = _
  simp [String.data_append]
  rfl

theorem wrapPlain_eq_append (t : String) :
    wrapPlain t = "```\n" ++ t ++ "\n```" := by
  apply String.ext
  show fencePlainNl ++ t.data ++ nlFence = _
  simp [String.data_append]
  rfl

/-- C6: wrapping any text in markdown code fences (plain or json-tagged)
never changes the result of parseJSONFromText, for either expected-shape
tag.  In particular, for every text the extractor parses successfully,
the fence-wrapped text parses to the same value. -/
theorem parseJSONFromText_fence_wrap_invariant (t e : String) :
    parseJSONFromText (JsText.ofString (wrapJson t)) e =
      parseJSONFromText (JsText.ofString t) e ∧
    parseJSONFromText (JsText.ofString (wrapPlain t)) e =
      parseJSONFromText (JsText.ofString t) e := by
  have hkeyJ : candidateOf (wrapJson t) e = candidateOf t e := by
    unfold candidateOf
    show selectCandidate (normalizeText (fenceJsonNl ++ t.data ++ nlFence)) e = _
    rw [normalizeText_wrapJson]
  have hkeyP : candidateOf (wrapPlain t) e = candidateOf t e := by
    unfold candidateOf
    show selectCandidate (normalizeText (fencePlainNl ++ t.data ++ nlFence)) e = _
    rw [normalizeText_wrapPlain]
  have hneJ : wrapJson t ≠ "" := by
    intro h
    have := congrArg String.data h
    simp [wrapJson, fenceJsonNl] at this
  have hneP : wrapPlain t ≠ "" := by
    intro h
    have := congrArg String.data h
    simp [wrapPlain, fencePlainNl] at this
  by_cases ht : t = ""
  · subst ht
    have hcand : candidateOf "" e = [] := by
      unfold candidateOf
      show selectCandidate (normalizeText []) e = []
      exact selectCandidate_nil e
    constructor
    · show parseText (wrapJson "") e = parseText "" e
      unfold parseText
      rw [if_neg hneJ, if_pos rfl, hkeyJ, hcand]
      rfl
    · show parseText (wrapPlain "") e = parseText "" e
      unfold parseText
      rw [if_neg hneP, if_pos rfl, hkeyP, hcand]
      rfl
  · constructor
    · show parseText (wrapJson t) e = parseText t e
      unfold parseText
      rw [if_neg hneJ, if_neg ht, hkeyJ]
    · show parseText (wrapPlain t) e = parseText t e
      unfold parseText
      rw [if_neg hneP, if_neg ht, hkeyP]
